import Mathlib

/-!
Painter (`aplikasipaint.cpp`): a shallow embedding and its verified properties

The program is a single-threaded SDL paint application.  Its global variables
are gathered in the record `App`; every C++ function that reads or writes a
global becomes a function on `App` (or on the part of it that it touches).

Modelling conventions.

* A C++ `int` is embedded as a Lean `Int`.  The arithmetic of the program on
  values that vary at run time (`addInt`, `subInt`, `mulInt`) wraps modulo
  `2^32` into the range `-2^31 ≤ n < 2^31`, as the compiled program does on a
  two's-complement machine.  The layout arithmetic of `AddButtons` and
  `CanvasAndUISetup` is on compile-time constants far inside that range and is
  written with the plain operations.
* The SDL renderer is an external collaborator.  It is embedded as the current
  draw colour together with the log of the drawing calls it has received
  (`Renderer.calls`, most recent call first).  `SDL_SetRenderDrawColor` takes
  `Uint8` channels, so the `int` channels are reduced modulo `256` there.
* A `for` loop over `int` is a left fold over the list of the values the loop
  variable takes (`intRange`), a loop over a `std::vector` is a left fold over
  the list of its elements paired with their indices.
* The loop of `FrameUpdate` is embedded by its body, `FrameUpdateBody`, one
  iteration on one `Input` (the polled event, if any, and the pointer position
  the library reports), and by `FrameUpdate`, the run of the loop over a finite
  sequence of inputs up to the first quit event.
* The raster surface is read off the log of calls by `pixelAt`; the surface is
  not clipped to the window.
* The globals `penColor`, `pressed`, `wasPressed`, `window` and `windowTitle`
  are never read by the functions embedded here and are left out.
-/

/-! ## Constants -/

def WIDTH : Int := 640
def HEIGHT : Int := 480
def CANVASTOP : Int := 0
def SIDEBAR_WIDTH : Int := 60

/-! ## Machine integers -/

/-- The 32-bit two's-complement `int` that stores the arithmetic result `n`:
`n` reduced modulo `2^32` into the range `-2^31 ≤ n < 2^31`. -/
def wrapInt (n : Int) : Int :=
  (n + 2147483648) % 4294967296 - 2147483648

/-- The C++ sum `a + b` of two `int`. -/
def addInt (a b : Int) : Int := wrapInt (a + b)

/-- The C++ difference `a - b` of two `int`. -/
def subInt (a b : Int) : Int := wrapInt (a - b)

/-- The C++ product `a * b` of two `int`. -/
def mulInt (a b : Int) : Int := wrapInt (a * b)

/-! ## Colour -/

structure _color where
  R : Int
  G : Int
  B : Int
deriving DecidableEq, Repr

/-- Method `_color::Set`: overwrite the three channels. -/
def _color.Set (_c : _color) (r g b : Int) : _color :=
  { R := r, G := g, B := b }

/-! ## The SDL renderer -/

/-- One drawing call received by the renderer, with the draw colour in force. -/
inductive SDLCall where
  | FillRect (x y w h : Int) (c : _color)
  | DrawPoint (x y : Int) (c : _color)
  | Present
deriving DecidableEq, Repr

structure Renderer where
  drawColor : _color
  calls : List SDLCall
deriving DecidableEq, Repr

/-- Library call `SDL_SetRenderDrawColor(renderer, R, G, B, 255)`; the channels
are converted to `Uint8`. -/
def SDL_SetRenderDrawColor (ren : Renderer) (R G B : Int) : Renderer :=
  { ren with drawColor := { R := R % 256, G := G % 256, B := B % 256 } }

/-- Library call `SDL_RenderFillRect(renderer, &r)`. -/
def SDL_RenderFillRect (ren : Renderer) (x y w h : Int) : Renderer :=
  { ren with calls := SDLCall.FillRect x y w h ren.drawColor :: ren.calls }

/-- Library call `SDL_RenderDrawPoint(renderer, x, y)`. -/
def SDL_RenderDrawPoint (ren : Renderer) (x y : Int) : Renderer :=
  { ren with calls := SDLCall.DrawPoint x y ren.drawColor :: ren.calls }

/-- Library call `SDL_RenderPresent(renderer)`. -/
def SDL_RenderPresent (ren : Renderer) : Renderer :=
  { ren with calls := SDLCall.Present :: ren.calls }

/-- The pixels named by the `SDL_RenderDrawPoint` calls of a log. -/
def plotted (calls : List SDLCall) : List (Int × Int) :=
  calls.filterMap fun c =>
    match c with
    | SDLCall.DrawPoint x y _ => some (x, y)
    | _ => none

/-! ## Rectangle region -/

structure _box where
  pos : Int × Int
  w : Int
  h : Int
deriving DecidableEq, Repr

/-- Method `_box::SetBox`. -/
def _box.SetBox (_b : _box) (x y W H : Int) : _box :=
  { pos := (x, y), w := W, h := H }

/-- Method `_box::DrawBox`: fill the rectangle with the colour and present. -/
def _box.DrawBox (b : _box) (ren : Renderer) (R G B : Int) : Renderer :=
  let ren := SDL_SetRenderDrawColor ren R G B
  let ren := SDL_RenderFillRect ren b.pos.1 b.pos.2 b.w b.h
  SDL_RenderPresent ren

/-- Method `_box::CheckInbound`. -/
def _box.CheckInbound (b : _box) (x y : Int) : Bool :=
  decide (b.pos.1 < x) && decide (b.pos.2 < y) &&
    decide (addInt b.pos.1 b.w > x) && decide (addInt b.pos.2 b.h > y)

/-! ## Surface -/

structure _surface where
  hitBox : _box
  bgColor : _color
deriving DecidableEq, Repr

/-- Method `_surface::DrawSurface`. -/
def _surface.DrawSurface (s : _surface) (ren : Renderer) : Renderer :=
  s.hitBox.DrawBox ren s.bgColor.R s.bgColor.G s.bgColor.B

/-! ## Loops over `int` -/

/-- The values taken by `i` in `for (int i = lo; i < hi; i++)`, in order. -/
def intRange (lo hi : Int) : List Int :=
  (List.range (hi - lo).toNat).map fun (k : Nat) => lo + (k : Int)

/-! ## The circle rasteriser -/

/-- Function `DrawCircle(r, x, y)`; `canvas` is the global it reads. -/
def DrawCircle (canvas : _surface) (ren : Renderer) (r x y : Int) : Renderer :=
  (intRange (addInt (subInt x r) 1) (addInt x r)).foldl
    (fun ren i =>
      (intRange (addInt (subInt y r) 1) (addInt y r)).foldl
        (fun ren j =>
          if canvas.hitBox.CheckInbound i j &&
              decide (addInt (mulInt (subInt i x) (subInt i x))
                (mulInt (subInt j y) (subInt j y)) ≤ mulInt r r) then
            SDL_RenderDrawPoint ren i j
          else ren)
        ren)
    ren

/-! ## Brush -/

structure _brush where
  brushSize : Int
  brushColor : _color
deriving DecidableEq, Repr

/-- Method `_brush::SetColor`. -/
def _brush.SetColor (b : _brush) (c : _color) : _brush :=
  { b with brushColor := c }

/-- Method `_brush::ChangeSize`. -/
def _brush.ChangeSize (b : _brush) (c : Int) : _brush :=
  let b := { b with brushSize := addInt b.brushSize c }
  if b.brushSize ≤ 0 then { b with brushSize := 1 } else b

/-! ## Buttons and the global state -/

structure _button where
  surface : _surface
deriving DecidableEq, Repr

/-- The global variables of the program. -/
structure App where
  prevPos : Int × Int
  mousePos : Int × Int
  canvas : _surface
  sidebar : _surface
  ui : _surface
  brush : _brush
  buttons : List _button
  renderer : Renderer
deriving DecidableEq, Repr

/-- Method `_brush::Draw`, on the global `brush`. -/
def _brush.Draw (s : App) : App :=
  if s.canvas.hitBox.CheckInbound s.mousePos.1 s.mousePos.2 then
    let ren := SDL_SetRenderDrawColor s.renderer
      s.brush.brushColor.R s.brush.brushColor.G s.brush.brushColor.B
    let ren := DrawCircle s.canvas ren s.brush.brushSize s.mousePos.1 s.mousePos.2
    { s with renderer := SDL_RenderPresent ren }
  else s

/-- Method `_button::Press`. -/
def _button.Press (b : _button) (s : App) (x y : Int) : App :=
  if b.surface.hitBox.CheckInbound x y then
    { s with brush := s.brush.SetColor b.surface.bgColor }
  else s

/-- One push in `AddButtons`: a button with the given box and fill colour. -/
def mkButton (x y W H : Int) (c : _color) : _button :=
  { surface := { hitBox := { pos := (x, y), w := W, h := H }, bgColor := c } }

/-- Function `AddButtons`. -/
def AddButtons (s : App) : App :=
  let buttonHeight : Int := 50
  let padding : Int := 10
  let x : Int := WIDTH - SIDEBAR_WIDTH + padding
  let y : Int := padding
  let colors : List _color :=
    [{ R := 255, G := 0, B := 0 }, { R := 0, G := 255, B := 0 },
     { R := 0, G := 0, B := 255 }, { R := 0, G := 0, B := 0 }]
  let (buttons, y) := colors.foldl
    (fun (st : List _button × Int) color =>
      (st.1 ++ [mkButton x st.2 (SIDEBAR_WIDTH - 2 * padding) buttonHeight color],
        st.2 + (buttonHeight + padding)))
    (s.buttons, y)
  let buttons := buttons ++
    [mkButton x y (SIDEBAR_WIDTH - 2 * padding) buttonHeight { R := 255, G := 255, B := 255 }]
  let y := y + (buttonHeight + padding)
  let buttons := buttons ++
    [mkButton x y (SIDEBAR_WIDTH - 2 * padding) buttonHeight { R := 100, G := 100, B := 100 }]
  let y := y + (buttonHeight + padding)
  let buttons := buttons ++
    [mkButton x y (SIDEBAR_WIDTH - 2 * padding) buttonHeight { R := 150, G := 150, B := 150 }]
  { s with buttons := buttons }

/-- The body of the loop of `Click` for index `i` and element `b = buttons[i]`. -/
def ClickBody (s : App) (ib : Nat × _button) : App :=
  if ib.2.surface.hitBox.CheckInbound s.mousePos.1 s.mousePos.2 then
    if ib.1 < 4 then
      { s with brush := s.brush.SetColor ib.2.surface.bgColor }
    else if ib.1 = 4 then
      { s with brush := s.brush.SetColor s.canvas.bgColor }
    else if ib.1 = 5 then
      { s with brush := s.brush.ChangeSize 1 }
    else if ib.1 = 6 then
      { s with brush := s.brush.ChangeSize (-1) }
    else s
  else s

/-- Function `Click`. -/
def Click (s : App) : App :=
  if s.sidebar.hitBox.CheckInbound s.mousePos.1 s.mousePos.2 then
    s.buttons.enum.foldl ClickBody s
  else s

/-- Function `CanvasAndUISetup`. -/
def CanvasAndUISetup (s : App) : App :=
  let s := { s with canvas.hitBox :=
    s.canvas.hitBox.SetBox 0 CANVASTOP (WIDTH - SIDEBAR_WIDTH) (HEIGHT - CANVASTOP) }
  let s := { s with sidebar.hitBox :=
    s.sidebar.hitBox.SetBox (WIDTH - SIDEBAR_WIDTH) CANVASTOP SIDEBAR_WIDTH (HEIGHT - CANVASTOP) }
  let s := { s with ui.hitBox := s.ui.hitBox.SetBox 0 0 WIDTH CANVASTOP }
  let s := { s with canvas.bgColor := s.canvas.bgColor.Set 255 255 255 }
  let s := { s with sidebar.bgColor := s.sidebar.bgColor.Set 200 200 200 }
  let s := { s with ui.bgColor := s.ui.bgColor.Set 200 200 200 }
  let s := { s with renderer := s.canvas.DrawSurface s.renderer }
  let s := { s with renderer := s.sidebar.DrawSurface s.renderer }
  let s := { s with renderer := s.ui.DrawSurface s.renderer }
  let s := AddButtons s
  s.buttons.foldl (fun s b => { s with renderer := b.surface.DrawSurface s.renderer }) s

/-- The globals as the C++ runtime initialises them before `main`: static
storage is zeroed, `brushSize` has its default member initialiser `4`, the
button vector is empty; the renderer has received no call yet. -/
def initApp : App :=
  let zc : _color := { R := 0, G := 0, B := 0 }
  let zs : _surface := { hitBox := { pos := (0, 0), w := 0, h := 0 }, bgColor := zc }
  { prevPos := (0, 0), mousePos := (0, 0), canvas := zs, sidebar := zs, ui := zs,
    brush := { brushSize := 4, brushColor := zc }, buttons := [],
    renderer := { drawColor := zc, calls := [] } }

/-- The state in which `main` enters `FrameUpdate`: after `CanvasAndUISetup()`
and `brush.SetColor(ui.bgColor)`. -/
def startApp : App :=
  let s := CanvasAndUISetup initApp
  { s with brush := s.brush.SetColor s.ui.bgColor }

/-- The startup scene with the pointer at `p` and the brush size set to `r`. -/
def sceneWith (p : Int × Int) (r : Int) : App :=
  { startApp with mousePos := p, brush := { startApp.brush with brushSize := r } }

/-- The startup scene with the button list replaced by five red buttons stacked
on the same rectangle, and the pointer inside that rectangle. -/
def stackedScene : App :=
  { sceneWith (600, 30) 4 with
    buttons := List.replicate 5 (mkButton 590 10 40 50 { R := 255, G := 0, B := 0 }) }

/-! ## The event loop -/

/-- Library constant `SDL_BUTTON_LMASK`, the mask `1 << 0` of the left button;
it has the same value as the button index `SDL_BUTTON_LEFT`. -/
def SDL_BUTTON_LMASK : Nat := 1

/-- Library key code `SDLK_e`, the character code of `e`. -/
def SDLK_e : Int := 101

/-- Library key code `SDLK_r`, the character code of `r`. -/
def SDLK_r : Int := 114

/-- Library key code `SDLK_EQUALS`, the character code of `=`. -/
def SDLK_EQUALS : Int := 61

/-- Library key code `SDLK_MINUS`, the character code of `-`. -/
def SDLK_MINUS : Int := 45

/-- The library union `SDL_Event`, by the value of `event.type`, with the fields
the program reads: the button mask `motion.state` of a pointer-move event, the
button index `button.button` of a button-press event, the key code
`key.keysym.sym` of a key-press event.  Every other event type is `other`. -/
inductive SDL_Event where
  | SDL_QUIT
  | SDL_MOUSEMOTION (state : Nat)
  | SDL_MOUSEBUTTONDOWN (button : Nat)
  | SDL_KEYDOWN (sym : Int)
  | other
deriving DecidableEq, Repr

/-- The expression `event.button.button`.  In the union the `Uint8` field
`button.button` lies on the first byte of the `Uint32` field `motion.state`, so
on a pointer-move event (little-endian machine) it reads the low byte of the
button mask.  The program reads it for these two event types only. -/
def SDL_Event.button_button : SDL_Event → Nat
  | SDL_Event.SDL_MOUSEMOTION state => state % 256
  | SDL_Event.SDL_MOUSEBUTTONDOWN button => button
  | _ => 0

/-- What one iteration of the loop receives from the library: the result of
`SDL_PollEvent` (`none` when no event is pending) and the pointer position that
`SDL_GetMouseState` reports. -/
structure Input where
  event : Option SDL_Event
  mouseState : Int × Int
deriving DecidableEq, Repr

/-- Whether the `while (true)` loop of `FrameUpdate` is still running. -/
inductive LoopState where
  | Running
  | Terminated
deriving DecidableEq, Repr

/-- One iteration of the loop of `FrameUpdate`. -/
def FrameUpdateBody (s : App) (inp : Input) : LoopState × App :=
  match inp.event with
  | none => (LoopState.Running, s)
  | some SDL_Event.SDL_QUIT => (LoopState.Terminated, s)
  | some (SDL_Event.SDL_MOUSEMOTION state) =>
    let s := { s with prevPos := s.mousePos }
    let s := { s with mousePos := inp.mouseState }
    if (SDL_Event.SDL_MOUSEMOTION state).button_button = SDL_BUTTON_LMASK then
      (LoopState.Running, _brush.Draw s)
    else (LoopState.Running, s)
  | some (SDL_Event.SDL_MOUSEBUTTONDOWN button) =>
    if (SDL_Event.SDL_MOUSEBUTTONDOWN button).button_button = SDL_BUTTON_LMASK then
      (LoopState.Running, Click s)
    else (LoopState.Running, s)
  | some (SDL_Event.SDL_KEYDOWN sym) =>
    if sym = SDLK_e then
      (LoopState.Running, { s with brush := s.brush.SetColor s.canvas.bgColor })
    else if sym = SDLK_r then
      (LoopState.Running, { s with renderer := s.canvas.DrawSurface s.renderer })
    else if sym = SDLK_EQUALS then
      (LoopState.Running, { s with brush := s.brush.ChangeSize 1 })
    else if sym = SDLK_MINUS then
      (LoopState.Running, { s with brush := s.brush.ChangeSize (-1) })
    else (LoopState.Running, s)
  | some SDL_Event.other => (LoopState.Running, s)

/-- Function `FrameUpdate` on a finite sequence of loop iterations: the loop
runs its body on each input in turn and leaves at the first quit event. -/
def FrameUpdate (s : App) : List Input → LoopState × App
  | [] => (LoopState.Running, s)
  | inp :: rest =>
    match FrameUpdateBody s inp with
    | (LoopState.Terminated, s2) => (LoopState.Terminated, s2)
    | (LoopState.Running, s2) => FrameUpdate s2 rest

/-! ## Specification vocabulary -/

/-- The pixels for which `DrawCircle` calls `SDL_RenderDrawPoint`, in call order. -/
def circlePixels (canvas : _surface) (r x y : Int) : List (Int × Int) :=
  (intRange (addInt (subInt x r) 1) (addInt x r)).flatMap fun i =>
    ((intRange (addInt (subInt y r) 1) (addInt y r)).filter fun j =>
      canvas.hitBox.CheckInbound i j &&
        decide (addInt (mulInt (subInt i x) (subInt i x))
          (mulInt (subInt j y) (subInt j y)) ≤ mulInt r r)).map fun j => (i, j)

/-- The log entries of plotting the given pixels with colour `c`, most recent first. -/
def plotCalls (c : _color) (ps : List (Int × Int)) : List SDLCall :=
  (ps.map fun p => SDLCall.DrawPoint p.1 p.2 c).reverse

/-- The calls a step added to the log: the part of `after.calls` in front of
`before.calls`. -/
def newCalls (before after : Renderer) : List SDLCall :=
  after.calls.take (after.calls.length - before.calls.length)

/-- The raster surface described by a log of calls: the colour of pixel `(x, y)`
is that of the most recent call that covers it, `none` when no call has.
`SDL_RenderFillRect` covers `rx ≤ x < rx + w`, `ry ≤ y < ry + h`,
`SDL_RenderDrawPoint` covers its point, `SDL_RenderPresent` covers nothing. -/
def pixelAt (calls : List SDLCall) (x y : Int) : Option _color :=
  match calls with
  | [] => none
  | SDLCall.FillRect rx ry w h c :: rest =>
    if rx ≤ x ∧ x < rx + w ∧ ry ≤ y ∧ y < ry + h then some c else pixelAt rest x y
  | SDLCall.DrawPoint px py c :: rest =>
    if px = x ∧ py = y then some c else pixelAt rest x y
  | SDLCall.Present :: rest => pixelAt rest x y

/-- The value fits a 32-bit `int`. -/
def inIntRange (n : Int) : Prop :=
  -2147483648 ≤ n ∧ n < 2147483648

instance (n : Int) : Decidable (inIntRange n) := by
  unfold inIntRange
  infer_instance

/-- The key code of the character `+` (library constant `SDLK_PLUS`); the
program has no case for it. -/
def SDLK_PLUS : Int := 43

/-- The colour channels fit the `Uint8` channels of the renderer. -/
def _color.inRange (c : _color) : Prop :=
  (0 ≤ c.R ∧ c.R < 256) ∧ (0 ≤ c.G ∧ c.G < 256) ∧ (0 ≤ c.B ∧ c.B < 256)

instance (c : _color) : Decidable c.inRange := by
  unfold _color.inRange
  infer_instance

/-- The action that the position `i` of a button in the list stands for, as the
specification words it: positions 0 to 3 set the brush colour to the button's
palette colour, position 4 is the eraser (canvas background), position 5
increases the size by 1, position 6 decreases it by 1; further positions have
no action. -/
def ordinalAction (canvasBg : _color) (br : _brush) (ib : Nat × _button) : _brush :=
  match ib.1 with
  | 0 | 1 | 2 | 3 => br.SetColor ib.2.surface.bgColor
  | 4 => br.SetColor canvasBg
  | 5 => br.ChangeSize 1
  | 6 => br.ChangeSize (-1)
  | _ => br

/-- The buttons of a list whose region contains the point, with their positions,
in list order. -/
def hitButtons (buttons : List _button) (x y : Int) : List (Nat × _button) :=
  buttons.enum.filter fun ib => ib.2.surface.hitBox.CheckInbound x y

/-- The loop input of a pointer-move event with button mask `state`, the
pointer being reported at `p`. -/
def motionInput (state : Nat) (p : Int × Int) : Input :=
  { event := some (SDL_Event.SDL_MOUSEMOTION state), mouseState := p }

/-- The loop input of a button-press event for the button with index `button`. -/
def pressInput (button : Nat) (p : Int × Int) : Input :=
  { event := some (SDL_Event.SDL_MOUSEBUTTONDOWN button), mouseState := p }

/-- The loop input of a key-press event with key code `sym`. -/
def keyInput (sym : Int) (p : Int × Int) : Input :=
  { event := some (SDL_Event.SDL_KEYDOWN sym), mouseState := p }

/-- The startup scene with the button list replaced by seven green buttons
stacked on the same rectangle, and the pointer inside that rectangle. -/
def stackedSeven : App :=
  { sceneWith (600, 30) 4 with
    buttons := List.replicate 7 (mkButton 590 10 40 50 { R := 0, G := 255, B := 0 }) }

/-- The startup scene with the button list replaced by six green buttons
stacked on the same rectangle, and the pointer inside that rectangle. -/
def stackedSix : App :=
  { sceneWith (600, 30) 4 with
    buttons := List.replicate 6 (mkButton 590 10 40 50 { R := 0, G := 255, B := 0 }) }

/-- The startup scene with the button list replaced by a red, a green and a blue
button stacked on the same rectangle, and the pointer inside that rectangle. -/
def stackedThree : App :=
  { sceneWith (600, 30) 4 with
    buttons :=
      [mkButton 590 10 40 50 { R := 255, G := 0, B := 0 },
       mkButton 590 10 40 50 { R := 0, G := 255, B := 0 },
       mkButton 590 10 40 50 { R := 0, G := 0, B := 255 }] }

/-- The startup scene after one stroke: a pointer-move event with the left
button held at `(100, 100)`. -/
def paintedScene : App :=
  (FrameUpdateBody startApp (motionInput 1 (100, 100))).2

/-! ## Auxiliary lemmas -/

theorem wrapInt_eq_self (n : Int) (h1 : -2147483648 ≤ n) (h2 : n < 2147483648) :
    wrapInt n = n := by
  unfold wrapInt
  omega

theorem wrapInt_ge (n : Int) : -2147483648 ≤ wrapInt n := by
  unfold wrapInt
  omega

theorem wrapInt_lt (n : Int) : wrapInt n < 2147483648 := by
  unfold wrapInt
  omega

theorem addInt_eq (a b : Int) (h : inIntRange (a + b)) : addInt a b = a + b :=
  wrapInt_eq_self _ h.1 h.2

theorem subInt_eq (a b : Int) (h : inIntRange (a - b)) : subInt a b = a - b :=
  wrapInt_eq_self _ h.1 h.2

theorem mulInt_eq (a b : Int) (h : inIntRange (a * b)) : mulInt a b = a * b :=
  wrapInt_eq_self _ h.1 h.2

theorem CheckInbound_eq_true_iff (b : _box) (x y : Int) :
    b.CheckInbound x y = true ↔
      b.pos.1 < x ∧ x < addInt b.pos.1 b.w ∧ b.pos.2 < y ∧ y < addInt b.pos.2 b.h := by
  unfold _box.CheckInbound
  simp only [Bool.and_eq_true, decide_eq_true_eq, gt_iff_lt]
  constructor
  · rintro ⟨⟨⟨h1, h2⟩, h3⟩, h4⟩
    exact ⟨h1, h3, h2, h4⟩
  · rintro ⟨h1, h3, h2, h4⟩
    exact ⟨⟨⟨h1, h2⟩, h3⟩, h4⟩

theorem CheckInbound_startup_iff (b : _box) (x y : Int)
    (hb : b = { pos := (0, 0), w := 580, h := 480 }) :
    b.CheckInbound x y = true ↔ 0 < x ∧ x < 580 ∧ 0 < y ∧ y < 480 := by
  rw [CheckInbound_eq_true_iff, hb]
  have h1 : addInt 0 580 = 580 := by decide
  have h2 : addInt 0 480 = 480 := by decide
  dsimp only
  rw [h1, h2]

theorem startApp_canvas_hitBox :
    startApp.canvas.hitBox = { pos := (0, 0), w := 580, h := 480 } := by
  decide

theorem startApp_sidebar_hitBox :
    startApp.sidebar.hitBox = { pos := (580, 0), w := 60, h := 480 } := by
  decide

theorem mem_intRange (lo hi i : Int) : i ∈ intRange lo hi ↔ lo ≤ i ∧ i < hi := by
  unfold intRange
  rw [List.mem_map]
  constructor
  · rintro ⟨k, hk, rfl⟩
    have hk2 : (k : Int) < hi - lo := Int.lt_toNat.mp (List.mem_range.mp hk)
    omega
  · rintro ⟨h1, h2⟩
    have h3 : ((i - lo).toNat : Int) = i - lo := Int.toNat_of_nonneg (by omega)
    refine ⟨(i - lo).toNat, List.mem_range.mpr (Int.lt_toNat.mpr ?_), ?_⟩ <;> omega

theorem plotCalls_append (c : _color) (ps qs : List (Int × Int)) :
    plotCalls c (ps ++ qs) = plotCalls c qs ++ plotCalls c ps := by
  simp [plotCalls]

theorem foldl_plot_row (c : _color) (p : Int → Bool) (i : Int) (L : List Int) :
    ∀ ren : Renderer, ren.drawColor = c →
      L.foldl (fun ren j => if p j then SDL_RenderDrawPoint ren i j else ren) ren =
        { ren with calls := plotCalls c ((L.filter p).map fun j => (i, j)) ++ ren.calls } := by
  induction L with
  | nil => intro ren _; simp [plotCalls]
  | cons j L ih =>
    intro ren hc
    simp only [List.foldl_cons]
    by_cases hp : p j = true
    · rw [if_pos hp, ih _ (by simpa [SDL_RenderDrawPoint] using hc)]
      simp [List.filter_cons, hp, plotCalls, SDL_RenderDrawPoint, hc]
    · rw [if_neg hp, ih _ hc]
      simp [List.filter_cons, hp]

theorem foldl_plot_rows (c : _color) (row : Int → List (Int × Int))
    (f : Renderer → Int → Renderer)
    (hf : ∀ (ren : Renderer) (i : Int), ren.drawColor = c →
      f ren i = { ren with calls := plotCalls c (row i) ++ ren.calls })
    (L : List Int) :
    ∀ ren : Renderer, ren.drawColor = c →
      L.foldl f ren = { ren with calls := plotCalls c (L.flatMap row) ++ ren.calls } := by
  induction L with
  | nil => intro ren _; simp [plotCalls]
  | cons i L ih =>
    intro ren hc
    simp only [List.foldl_cons, List.flatMap_cons]
    rw [hf ren i hc, ih _ (by simpa using hc), plotCalls_append]
    simp

theorem DrawCircle_eq (canvas : _surface) (ren : Renderer) (r x y : Int) :
    DrawCircle canvas ren r x y =
      { ren with calls := plotCalls ren.drawColor (circlePixels canvas r x y) ++ ren.calls } := by
  unfold DrawCircle circlePixels
  exact foldl_plot_rows ren.drawColor
    (fun i => ((intRange (addInt (subInt y r) 1) (addInt y r)).filter fun j =>
      canvas.hitBox.CheckInbound i j &&
        decide (addInt (mulInt (subInt i x) (subInt i x))
          (mulInt (subInt j y) (subInt j y)) ≤ mulInt r r)).map fun j => (i, j)) _
    (fun ren2 i h => foldl_plot_row ren.drawColor _ i _ ren2 h) _ ren rfl

theorem mem_circlePixels (canvas : _surface) (r x y i j : Int) :
    (i, j) ∈ circlePixels canvas r x y ↔
      (addInt (subInt x r) 1 ≤ i ∧ i < addInt x r) ∧
      (addInt (subInt y r) 1 ≤ j ∧ j < addInt y r) ∧
        canvas.hitBox.CheckInbound i j = true ∧
        addInt (mulInt (subInt i x) (subInt i x)) (mulInt (subInt j y) (subInt j y)) ≤
          mulInt r r := by
  unfold circlePixels
  simp only [List.mem_flatMap, List.mem_map, List.mem_filter, mem_intRange, Prod.mk.injEq,
    Bool.and_eq_true, decide_eq_true_eq]
  constructor
  · rintro ⟨a, ha, b, ⟨hb, hin, hd⟩, rfl, rfl⟩
    exact ⟨ha, hb, hin, hd⟩
  · rintro ⟨ha, hb, hin, hd⟩
    exact ⟨i, ha, j, ⟨hb, hin, hd⟩, rfl, rfl⟩

theorem circle_test_iff (i j x y r : Int)
    (hdx : -32767 ≤ i - x ∧ i - x ≤ 32767) (hdy : -32767 ≤ j - y ∧ j - y ≤ 32767)
    (hr0 : 0 ≤ r) (hr : r ≤ 46340) :
    addInt (mulInt (subInt i x) (subInt i x)) (mulInt (subInt j y) (subInt j y)) ≤
        mulInt r r ↔
      (i - x) * (i - x) + (j - y) * (j - y) ≤ r * r := by
  have e1 : subInt i x = i - x := subInt_eq _ _ ⟨by omega, by omega⟩
  have e2 : subInt j y = j - y := subInt_eq _ _ ⟨by omega, by omega⟩
  have s1 : 0 ≤ (i - x) * (i - x) ∧ (i - x) * (i - x) ≤ 1073676289 :=
    ⟨mul_self_nonneg _, by nlinarith⟩
  have s2 : 0 ≤ (j - y) * (j - y) ∧ (j - y) * (j - y) ≤ 1073676289 :=
    ⟨mul_self_nonneg _, by nlinarith⟩
  have s3 : 0 ≤ r * r ∧ r * r ≤ 2147395600 := ⟨mul_self_nonneg _, by nlinarith⟩
  rw [e1, e2, mulInt_eq _ _ ⟨by omega, by omega⟩, mulInt_eq _ _ ⟨by omega, by omega⟩,
    mulInt_eq _ _ ⟨by omega, by omega⟩, addInt_eq _ _ ⟨by omega, by omega⟩]

/-- The loop bounds of `DrawCircle` do not overflow. -/
theorem circle_bounds_eq (x r : Int)
    (h : inIntRange (x - r) ∧ inIntRange (x - r + 1) ∧ inIntRange (x + r)) :
    addInt (subInt x r) 1 = x - r + 1 ∧ addInt x r = x + r := by
  rw [subInt_eq _ _ h.1, addInt_eq _ _ h.2.1, addInt_eq _ _ h.2.2]
  exact ⟨rfl, rfl⟩

theorem mem_circlePixels_of_fit (canvas : _surface) (r x y i j : Int) (hr : r ≤ 32768)
    (hx : inIntRange (x - r) ∧ inIntRange (x - r + 1) ∧ inIntRange (x + r))
    (hy : inIntRange (y - r) ∧ inIntRange (y - r + 1) ∧ inIntRange (y + r)) :
    (i, j) ∈ circlePixels canvas r x y ↔
      (x - r + 1 ≤ i ∧ i < x + r) ∧ (y - r + 1 ≤ j ∧ j < y + r) ∧
        canvas.hitBox.CheckInbound i j = true ∧
        (i - x) * (i - x) + (j - y) * (j - y) ≤ r * r := by
  rw [mem_circlePixels, (circle_bounds_eq x r hx).1, (circle_bounds_eq x r hx).2,
    (circle_bounds_eq y r hy).1, (circle_bounds_eq y r hy).2]
  constructor
  · rintro ⟨⟨h1, h2⟩, ⟨h3, h4⟩, hin, hd⟩
    exact ⟨⟨h1, h2⟩, ⟨h3, h4⟩, hin,
      (circle_test_iff i j x y r ⟨by omega, by omega⟩ ⟨by omega, by omega⟩ (by omega)
        (by omega)).mp hd⟩
  · rintro ⟨⟨h1, h2⟩, ⟨h3, h4⟩, hin, hd⟩
    exact ⟨⟨h1, h2⟩, ⟨h3, h4⟩, hin,
      (circle_test_iff i j x y r ⟨by omega, by omega⟩ ⟨by omega, by omega⟩ (by omega)
        (by omega)).mpr hd⟩

theorem mem_circlePixels_startup (canvas : _surface) (r x y i j : Int)
    (hc : canvas.hitBox = { pos := (0, 0), w := 580, h := 480 })
    (hx : 0 < x ∧ x < 580) (hy : 0 < y ∧ y < 480) (hr1 : 1 ≤ r) (hr : r ≤ 46340) :
    (i, j) ∈ circlePixels canvas r x y ↔
      (x - r + 1 ≤ i ∧ i < x + r) ∧ (y - r + 1 ≤ j ∧ j < y + r) ∧
        canvas.hitBox.CheckInbound i j = true ∧
        (i - x) * (i - x) + (j - y) * (j - y) ≤ r * r := by
  have bx := circle_bounds_eq x r
    ⟨⟨by omega, by omega⟩, ⟨by omega, by omega⟩, ⟨by omega, by omega⟩⟩
  have bY := circle_bounds_eq y r
    ⟨⟨by omega, by omega⟩, ⟨by omega, by omega⟩, ⟨by omega, by omega⟩⟩
  rw [mem_circlePixels, bx.1, bx.2, bY.1, bY.2]
  constructor
  · rintro ⟨hi, hj, hin, hd⟩
    have hp := (CheckInbound_startup_iff _ i j hc).mp hin
    exact ⟨hi, hj, hin,
      (circle_test_iff i j x y r ⟨by omega, by omega⟩ ⟨by omega, by omega⟩ (by omega)
        hr).mp hd⟩
  · rintro ⟨hi, hj, hin, hd⟩
    have hp := (CheckInbound_startup_iff _ i j hc).mp hin
    exact ⟨hi, hj, hin,
      (circle_test_iff i j x y r ⟨by omega, by omega⟩ ⟨by omega, by omega⟩ (by omega)
        hr).mpr hd⟩

theorem plotted_plotCalls (c : _color) (ps : List (Int × Int)) :
    plotted (plotCalls c ps) = ps.reverse := by
  unfold plotted plotCalls
  induction ps with
  | nil => simp
  | cons p ps ih => simp [List.filterMap_append, ih]

theorem mem_plotCalls (c : _color) (ps : List (Int × Int)) (e : SDLCall) :
    e ∈ plotCalls c ps ↔ ∃ p ∈ ps, e = SDLCall.DrawPoint p.1 p.2 c := by
  unfold plotCalls
  simp only [List.mem_reverse, List.mem_map]
  constructor
  · rintro ⟨p, hp, rfl⟩; exact ⟨p, hp, rfl⟩
  · rintro ⟨p, hp, rfl⟩; exact ⟨p, hp, rfl⟩

theorem newCalls_of_append (before after : Renderer) (new : List SDLCall)
    (h : after.calls = new ++ before.calls) : newCalls before after = new := by
  unfold newCalls
  rw [h]
  simp

theorem newCalls_self (ren : Renderer) : newCalls ren ren = [] := by
  simp [newCalls]

theorem newCalls_DrawCircle (canvas : _surface) (ren : Renderer) (r x y : Int) :
    newCalls ren (DrawCircle canvas ren r x y) =
      plotCalls ren.drawColor (circlePixels canvas r x y) := by
  apply newCalls_of_append
  rw [DrawCircle_eq]

theorem newCalls_Draw (s : App)
    (h : s.canvas.hitBox.CheckInbound s.mousePos.1 s.mousePos.2 = true) :
    newCalls s.renderer (_brush.Draw s).renderer =
      SDLCall.Present ::
        plotCalls
          { R := s.brush.brushColor.R % 256, G := s.brush.brushColor.G % 256,
            B := s.brush.brushColor.B % 256 }
          (circlePixels s.canvas s.brush.brushSize s.mousePos.1 s.mousePos.2) := by
  apply newCalls_of_append
  unfold _brush.Draw
  rw [if_pos h]
  simp [DrawCircle_eq, SDL_RenderPresent, SDL_SetRenderDrawColor]

theorem Draw_outside (s : App)
    (h : s.canvas.hitBox.CheckInbound s.mousePos.1 s.mousePos.2 = false) :
    _brush.Draw s = s := by
  unfold _brush.Draw
  simp [h]

theorem plotted_present_plotCalls (c : _color) (ps : List (Int × Int)) :
    plotted (SDLCall.Present :: plotCalls c ps) = ps.reverse := by
  rw [← plotted_plotCalls c ps]
  simp [plotted]

theorem mem_plotted_Draw (s : App) (i j : Int) :
    (i, j) ∈ plotted (newCalls s.renderer (_brush.Draw s).renderer) ↔
      s.canvas.hitBox.CheckInbound s.mousePos.1 s.mousePos.2 = true ∧
        (i, j) ∈ circlePixels s.canvas s.brush.brushSize s.mousePos.1 s.mousePos.2 := by
  cases h : s.canvas.hitBox.CheckInbound s.mousePos.1 s.mousePos.2 with
  | false => simp [Draw_outside s h, newCalls_self, plotted]
  | true =>
    rw [newCalls_Draw s h]
    rw [plotted_present_plotCalls]
    simp

theorem startup_disk_inside (i j : Int) (h : (i - 100) ^ 2 + (j - 100) ^ 2 ≤ 5 ^ 2) :
    startApp.canvas.hitBox.CheckInbound i j = true := by
  rw [CheckInbound_startup_iff _ i j startApp_canvas_hitBox]
  refine ⟨?_, ?_, ?_, ?_⟩ <;> nlinarith [sq_nonneg (i - 100), sq_nonneg (j - 100)]

/-! ## The claims about containment, the brush and the rasteriser -/

/-- C1 (counterexample): for the region `(2147483000, 0, 1000, 10)` the point
`(2147483100, 5)` has `x < px < x + width` and `y < py < y + height`, but the
`int` sum `x + width` wraps and `CheckInbound` returns false. -/
theorem C1_counterexample :
    ((2147483000 : Int) < 2147483100 ∧ (2147483100 : Int) < 2147483000 + 1000) ∧
    ((0 : Int) < 5 ∧ (5 : Int) < 0 + 10) ∧
    _box.CheckInbound { pos := (2147483000, 0), w := 1000, h := 10 } 2147483100 5 = false := by
  decide

/-- C1 (amended): for every rectangle region `(x, y, width, height)` whose sums
`x + width` and `y + height` fit a 32-bit `int`, `CheckInbound` holds exactly for
the points strictly inside all four edges, `x < px < x + width` and
`y < py < y + height`; for the region `(0, 0, 10, 10)` the points `(0,5)`,
`(10,5)`, `(5,0)`, `(5,10)` are outside and `(5,5)` is inside. -/
theorem C1_CheckInbound_strictly_inside (x y width height px py : Int)
    (hx : inIntRange (x + width)) (hy : inIntRange (y + height)) :
    (_box.CheckInbound { pos := (x, y), w := width, h := height } px py = true ↔
        (x < px ∧ px < x + width) ∧ (y < py ∧ py < y + height)) ∧
    _box.CheckInbound { pos := (0, 0), w := 10, h := 10 } 0 5 = false ∧
    _box.CheckInbound { pos := (0, 0), w := 10, h := 10 } 10 5 = false ∧
    _box.CheckInbound { pos := (0, 0), w := 10, h := 10 } 5 0 = false ∧
    _box.CheckInbound { pos := (0, 0), w := 10, h := 10 } 5 10 = false ∧
    _box.CheckInbound { pos := (0, 0), w := 10, h := 10 } 5 5 = true := by
  refine ⟨?_, by decide, by decide, by decide, by decide, by decide⟩
  rw [CheckInbound_eq_true_iff]
  dsimp only
  rw [addInt_eq _ _ hx, addInt_eq _ _ hy]
  constructor
  · rintro ⟨h1, h2, h3, h4⟩
    exact ⟨⟨h1, h2⟩, h3, h4⟩
  · rintro ⟨⟨h1, h2⟩, h3, h4⟩
    exact ⟨h1, h2, h3, h4⟩

/-- C1 (witness): the region `(0, 0, 10, 10)` has sums within the `int` range,
and it contains `(5, 5)`. -/
theorem C1_CheckInbound_strictly_inside_witness :
    inIntRange (0 + 10) ∧ inIntRange (0 + 10) ∧
    (_box.CheckInbound { pos := (0, 0), w := 10, h := 10 } 5 5 = true ↔
      ((0 : Int) < 5 ∧ (5 : Int) < 0 + 10) ∧ ((0 : Int) < 5 ∧ (5 : Int) < 0 + 10)) :=
  ⟨by decide, by decide,
    (C1_CheckInbound_strictly_inside 0 0 10 10 5 5 (by decide) (by decide)).1⟩

/-- C2 (counterexample): from size 4, `ChangeSize 2147483647` leaves the size at
1, because the `int` sum wraps to a negative value, while `max 1 (4 + 2147483647)`
is 2147483651. -/
theorem C2_counterexample :
    (1 : Int) ≤ 4 ∧
    (_brush.ChangeSize { brushSize := 4, brushColor := { R := 0, G := 0, B := 0 } }
      2147483647).brushSize = 1 ∧
    max (1 : Int) (4 + 2147483647) = 2147483651 := by
  decide

/-- C2 (amended): for every brush size `s` (in particular every `s ≥ 1`) and
every delta `d` whose sum `s + d` fits a 32-bit `int`, `ChangeSize d` leaves the
brush size equal to `max 1 (s + d)` and leaves the colour unchanged; from size 4,
`ChangeSize (-10)` gives exactly 1 and three times `ChangeSize 1` gives 7. -/
theorem C2_ChangeSize_floor (b : _brush) (d : Int) (hsum : inIntRange (b.brushSize + d)) :
    ((b.ChangeSize d).brushSize = max 1 (b.brushSize + d) ∧
      (b.ChangeSize d).brushColor = b.brushColor) ∧
    (∀ c : _color,
      (_brush.ChangeSize { brushSize := 4, brushColor := c } (-10)).brushSize = 1) ∧
    (∀ c : _color,
      (((_brush.ChangeSize { brushSize := 4, brushColor := c } 1).ChangeSize 1).ChangeSize
        1).brushSize = 7) := by
  refine ⟨?_, ?_, ?_⟩
  · unfold _brush.ChangeSize
    dsimp only
    rw [addInt_eq _ _ hsum]
    by_cases h : b.brushSize + d ≤ 0
    · rw [if_pos h]
      dsimp only
      exact ⟨(max_eq_left (by omega)).symm, rfl⟩
    · rw [if_neg h]
      dsimp only
      exact ⟨(max_eq_right (by omega)).symm, rfl⟩
  · intro c; rfl
  · intro c; rfl

/-- C2 (witness): size 4 and delta -10 have the sum -6 within the `int` range,
and the size becomes `max 1 (-6) = 1`. -/
theorem C2_ChangeSize_floor_witness :
    inIntRange (4 + -10) ∧
    (_brush.ChangeSize { brushSize := 4, brushColor := { R := 0, G := 0, B := 0 } }
      (-10)).brushSize = max 1 (4 + -10) :=
  ⟨by decide,
    (C2_ChangeSize_floor { brushSize := 4, brushColor := { R := 0, G := 0, B := 0 } } (-10)
      (by decide)).1.1⟩

/-- C3 (counterexample): on the startup canvas, for radius 46341 and centre
`(100, 100)` the pixel `(100, 100)` lies in the bounding box, is contained in
the canvas and has `0² + 0² ≤ 46341²`, but the `int` product `r * r` wraps to a
negative value and `DrawCircle` does not plot it. -/
theorem C3_counterexample :
    (((100 : Int) - 46341 + 1 ≤ 100 ∧ (100 : Int) < 100 + 46341) ∧
      ((100 : Int) - 46341 + 1 ≤ 100 ∧ (100 : Int) < 100 + 46341) ∧
      startApp.canvas.hitBox.CheckInbound 100 100 = true ∧
      ((100 : Int) - 100) ^ 2 + ((100 : Int) - 100) ^ 2 ≤ 46341 ^ 2) ∧
    ((100 : Int), (100 : Int)) ∉ plotted (newCalls startApp.renderer
      (DrawCircle startApp.canvas startApp.renderer 46341 100 100)) := by
  refine ⟨by decide, ?_⟩
  rw [newCalls_DrawCircle, plotted_plotCalls, List.mem_reverse, mem_circlePixels]
  decide

/-- C3 (amended): for every radius `r ≤ 32768`, every centre `(x, y)` whose loop
bounds `x - r`, `x - r + 1`, `x + r`, `y - r`, `y - r + 1`, `y + r` fit a 32-bit
`int`, and every canvas region, the calls `DrawCircle r x y` adds to the
renderer are exactly point plots, and the set of plotted pixels is the set of
`(i, j)` with `x - r + 1 ≤ i < x + r`, `y - r + 1 ≤ j < y + r`, strictly inside
the canvas region, and `(i - x)² + (j - y)² ≤ r²`. -/
theorem C3_DrawCircle_plotted_set (canvas : _surface) (ren : Renderer) (r x y : Int)
    (hr : r ≤ 32768)
    (hx : inIntRange (x - r) ∧ inIntRange (x - r + 1) ∧ inIntRange (x + r))
    (hy : inIntRange (y - r) ∧ inIntRange (y - r + 1) ∧ inIntRange (y + r)) :
    (DrawCircle canvas ren r x y).calls =
        newCalls ren (DrawCircle canvas ren r x y) ++ ren.calls ∧
      (∀ e ∈ newCalls ren (DrawCircle canvas ren r x y),
        ∃ i j, e = SDLCall.DrawPoint i j ren.drawColor) ∧
      ∀ i j : Int, (i, j) ∈ plotted (newCalls ren (DrawCircle canvas ren r x y)) ↔
        (x - r + 1 ≤ i ∧ i < x + r) ∧ (y - r + 1 ≤ j ∧ j < y + r) ∧
          canvas.hitBox.CheckInbound i j = true ∧
          (i - x) ^ 2 + (j - y) ^ 2 ≤ r ^ 2 := by
  rw [newCalls_DrawCircle]
  refine ⟨by rw [DrawCircle_eq], ?_, ?_⟩
  · intro e he
    obtain ⟨p, _, rfl⟩ := (mem_plotCalls _ _ _).mp he
    exact ⟨p.1, p.2, rfl⟩
  · intro i j
    rw [plotted_plotCalls, List.mem_reverse, mem_circlePixels_of_fit _ _ _ _ _ _ hr hx hy,
      sq, sq, sq]

/-- C3 (witness): on the startup canvas, radius 5 and centre `(100, 100)` have
loop bounds within the `int` range, and pixel `(103, 103)` is plotted. -/
theorem C3_DrawCircle_plotted_set_witness :
    (5 : Int) ≤ 32768 ∧
    (inIntRange (100 - 5) ∧ inIntRange (100 - 5 + 1) ∧ inIntRange (100 + 5)) ∧
    ((103 : Int), (103 : Int)) ∈ plotted (newCalls startApp.renderer
      (DrawCircle startApp.canvas startApp.renderer 5 100 100)) :=
  ⟨by decide, by decide,
    ((C3_DrawCircle_plotted_set startApp.canvas startApp.renderer 5 100 100 (by decide)
      (by decide) (by decide)).2.2 103 103).mpr (by decide)⟩

/-- C4 (counterexample): in the startup scene, with the brush of radius 5 at
`(100, 100)`, the whole disk of radius 5 lies strictly inside the canvas and
pixel `(105, 100)` has `5² + 0² ≤ 5²`, yet it is not painted. -/
theorem C4_counterexample :
    (∀ i j : Int, (i - 100) ^ 2 + (j - 100) ^ 2 ≤ 5 ^ 2 →
      startApp.canvas.hitBox.CheckInbound i j = true) ∧
    ((105 : Int) - 100) ^ 2 + ((100 : Int) - 100) ^ 2 ≤ 5 ^ 2 ∧
    ((105 : Int), (100 : Int)) ∉ plotted (newCalls startApp.renderer
      (_brush.Draw (sceneWith (100, 100) 5)).renderer) := by
  exact ⟨startup_disk_inside, by norm_num, by decide⟩

/-- C4 (amended): in the program's scene, whose canvas is the startup canvas
`(0, 0, 580, 480)`, when the whole disk of radius `r` around the brush centre
`(cx, cy)` lies strictly inside the canvas, painting at the centre paints pixel
`(i, j)` if and only if `(i - cx)² + (j - cy)² ≤ r²` and `|i - cx| < r` and
`|j - cy| < r`; this holds for every radius, in particular for `r ≥ 1`. -/
theorem C4_Draw_paints_disk_within_open_box (s : App) (i j : Int)
    (hcanvas : s.canvas.hitBox = startApp.canvas.hitBox)
    (hdisk : ∀ a b : Int,
      (a - s.mousePos.1) ^ 2 + (b - s.mousePos.2) ^ 2 ≤ s.brush.brushSize ^ 2 →
        s.canvas.hitBox.CheckInbound a b = true) :
    (i, j) ∈ plotted (newCalls s.renderer (_brush.Draw s).renderer) ↔
      (i - s.mousePos.1) ^ 2 + (j - s.mousePos.2) ^ 2 ≤ s.brush.brushSize ^ 2 ∧
        |i - s.mousePos.1| < s.brush.brushSize ∧ |j - s.mousePos.2| < s.brush.brushSize := by
  have hc := hcanvas.trans startApp_canvas_hitBox
  have hcentre : s.canvas.hitBox.CheckInbound s.mousePos.1 s.mousePos.2 = true := by
    apply hdisk
    rw [sub_self]
    nlinarith [sq_nonneg s.brush.brushSize]
  have hpc := (CheckInbound_startup_iff _ _ _ hc).mp hcentre
  have hplus := (CheckInbound_startup_iff _ _ _ hc).mp
    (hdisk (s.mousePos.1 + s.brush.brushSize) s.mousePos.2 (by
      rw [add_sub_cancel_left, sub_self]
      nlinarith))
  have hminus := (CheckInbound_startup_iff _ _ _ hc).mp
    (hdisk (s.mousePos.1 - s.brush.brushSize) s.mousePos.2 (by
      rw [sub_sub_cancel_left, sub_self]
      nlinarith))
  rw [mem_plotted_Draw,
    mem_circlePixels_of_fit _ _ _ _ _ _ (by omega)
      ⟨⟨by omega, by omega⟩, ⟨by omega, by omega⟩, ⟨by omega, by omega⟩⟩
      ⟨⟨by omega, by omega⟩, ⟨by omega, by omega⟩, ⟨by omega, by omega⟩⟩,
    abs_lt, abs_lt, ← sq, ← sq, ← sq]
  constructor
  · rintro ⟨_, ⟨h1, h2⟩, ⟨h3, h4⟩, _, hd⟩
    exact ⟨hd, ⟨by omega, by omega⟩, ⟨by omega, by omega⟩⟩
  · rintro ⟨hd, ⟨h1, h2⟩, ⟨h3, h4⟩⟩
    exact ⟨hcentre, ⟨by omega, by omega⟩, ⟨by omega, by omega⟩, hdisk i j hd, hd⟩

/-- C4 (witness): in the startup scene with centre `(100, 100)` and radius 5 the
disk lies inside the canvas, pixel `(103, 103)` is painted and `(105, 105)` is not. -/
theorem C4_Draw_paints_disk_within_open_box_witness :
    (sceneWith (100, 100) 5).canvas.hitBox = startApp.canvas.hitBox ∧
    (∀ a b : Int, (a - 100) ^ 2 + (b - 100) ^ 2 ≤ 5 ^ 2 →
      (sceneWith (100, 100) 5).canvas.hitBox.CheckInbound a b = true) ∧
    ((103 : Int), (103 : Int)) ∈ plotted (newCalls (sceneWith (100, 100) 5).renderer
      (_brush.Draw (sceneWith (100, 100) 5)).renderer) ∧
    ((105 : Int), (105 : Int)) ∉ plotted (newCalls (sceneWith (100, 100) 5).renderer
      (_brush.Draw (sceneWith (100, 100) 5)).renderer) :=
  ⟨rfl, startup_disk_inside,
    (C4_Draw_paints_disk_within_open_box (sceneWith (100, 100) 5) 103 103 rfl
      startup_disk_inside).mpr ⟨by decide, by decide, by decide⟩,
    fun h => absurd ((C4_Draw_paints_disk_within_open_box (sceneWith (100, 100) 5) 105 105 rfl
      startup_disk_inside).mp h).1 (by decide)⟩

/-- C6: when the canvas region does not contain the pointer position (a position
on a canvas edge included), `Draw` is the identity on the program state: it
plots no pixel, issues no call, and leaves brush size and colour unchanged. -/
theorem C6_Draw_outside_canvas_noop (s : App)
    (h : s.canvas.hitBox.CheckInbound s.mousePos.1 s.mousePos.2 = false) :
    _brush.Draw s = s ∧
      plotted (newCalls s.renderer (_brush.Draw s).renderer) = [] ∧
      (_brush.Draw s).renderer.calls = s.renderer.calls ∧
      (_brush.Draw s).brush.brushSize = s.brush.brushSize ∧
      (_brush.Draw s).brush.brushColor = s.brush.brushColor := by
  rw [Draw_outside s h, newCalls_self]
  exact ⟨rfl, rfl, rfl, rfl, rfl⟩

/-- C6 (witness): in the startup scene the pointer position `(580, 100)` is on
the right edge of the canvas, and `Draw` changes nothing there. -/
theorem C6_Draw_outside_canvas_noop_witness :
    (sceneWith (580, 100) 4).canvas.hitBox.CheckInbound 580 100 = false ∧
    _brush.Draw (sceneWith (580, 100) 4) = sceneWith (580, 100) 4 :=
  ⟨by decide, (C6_Draw_outside_canvas_noop (sceneWith (580, 100) 4) (by decide)).1⟩

/-! ## Auxiliary lemmas about the loop of `Click` -/

theorem ChangeSize_brushColor (b : _brush) (c : Int) :
    (b.ChangeSize c).brushColor = b.brushColor := by
  unfold _brush.ChangeSize
  dsimp only
  split <;> rfl

theorem ChangeSize_ge_one (b : _brush) (c : Int) : 1 ≤ (b.ChangeSize c).brushSize := by
  unfold _brush.ChangeSize
  dsimp only
  split
  · exact le_refl _
  · dsimp only
    omega

theorem ChangeSize_one_of_lt (b : _brush) (h1 : 0 ≤ b.brushSize)
    (h2 : b.brushSize < 2147483647) :
    b.ChangeSize 1 = { brushSize := b.brushSize + 1, brushColor := b.brushColor } := by
  unfold _brush.ChangeSize
  dsimp only
  rw [addInt_eq _ _ ⟨by omega, by omega⟩, if_neg (by omega)]

theorem ChangeSize_neg_one (b : _brush) (h1 : -2147483647 ≤ b.brushSize)
    (h2 : b.brushSize ≤ 2147483647) :
    b.ChangeSize (-1) =
      { brushSize := max 1 (b.brushSize - 1), brushColor := b.brushColor } := by
  unfold _brush.ChangeSize
  dsimp only
  rw [addInt_eq _ _ ⟨by omega, by omega⟩]
  by_cases h : b.brushSize + -1 ≤ 0
  · rw [if_pos h, max_eq_left (by omega)]
  · rw [if_neg h, max_eq_right (by omega)]
    rfl

theorem button_box_iff (k : Nat) (hk : k < 7) (x y : Int) :
    _box.CheckInbound { pos := (590, 10 + 60 * (k : Int)), w := 40, h := 50 } x y = true ↔
      590 < x ∧ x < 630 ∧ 10 + 60 * (k : Int) < y ∧ y < 60 + 60 * (k : Int) := by
  rw [CheckInbound_eq_true_iff]
  dsimp only
  rw [addInt_eq _ _ ⟨by omega, by omega⟩, addInt_eq _ _ ⟨by omega, by omega⟩]
  constructor
  · rintro ⟨h1, h2, h3, h4⟩
    exact ⟨h1, by omega, h3, by omega⟩
  · rintro ⟨h1, h2, h3, h4⟩
    exact ⟨h1, by omega, h3, by omega⟩

theorem sidebar_box_iff (x y : Int) :
    startApp.sidebar.hitBox.CheckInbound x y = true ↔
      580 < x ∧ x < 640 ∧ 0 < y ∧ y < 480 := by
  rw [CheckInbound_eq_true_iff, startApp_sidebar_hitBox]
  have h1 : addInt 580 60 = 640 := by decide
  have h2 : addInt 0 480 = 480 := by decide
  dsimp only
  rw [h1, h2]

theorem ClickBody_mousePos (s : App) (ib : Nat × _button) :
    (ClickBody s ib).mousePos = s.mousePos := by
  unfold ClickBody
  repeat' split
  all_goals rfl

theorem ClickBody_canvas (s : App) (ib : Nat × _button) :
    (ClickBody s ib).canvas = s.canvas := by
  unfold ClickBody
  repeat' split
  all_goals rfl

theorem ClickBody_miss (s : App) (ib : Nat × _button)
    (h : ib.2.surface.hitBox.CheckInbound s.mousePos.1 s.mousePos.2 = false) :
    ClickBody s ib = s := by
  unfold ClickBody
  simp [h]

theorem foldl_ClickBody_miss (L : List (Nat × _button)) (s : App)
    (h : ∀ ib ∈ L, ib.2.surface.hitBox.CheckInbound s.mousePos.1 s.mousePos.2 = false) :
    L.foldl ClickBody s = s := by
  induction L with
  | nil => rfl
  | cons ib L ih =>
    rw [List.foldl_cons, ClickBody_miss s ib (h ib (List.mem_cons_self _ _))]
    exact ih fun ib2 h2 => h ib2 (List.mem_cons_of_mem _ h2)

theorem foldl_ClickBody_color_of_ge5 (L : List (Nat × _button)) :
    ∀ s : App, (∀ ib ∈ L, 5 ≤ ib.1) →
      (L.foldl ClickBody s).brush.brushColor = s.brush.brushColor ∧
        (L.foldl ClickBody s).canvas = s.canvas := by
  induction L with
  | nil => intro s _; exact ⟨rfl, rfl⟩
  | cons ib L ih =>
    intro s h
    rw [List.foldl_cons]
    have h5 : 5 ≤ ib.1 := h ib (List.mem_cons_self _ _)
    obtain ⟨h1, h2⟩ := ih (ClickBody s ib) fun ib2 h2 => h ib2 (List.mem_cons_of_mem _ h2)
    rw [h1, h2, ClickBody_canvas]
    refine ⟨?_, rfl⟩
    unfold ClickBody
    have hc : ∀ (b : _brush) (c : Int), (b.ChangeSize c).brushColor = b.brushColor := by
      intro b c
      unfold _brush.ChangeSize
      dsimp only
      split <;> rfl
    repeat' split
    all_goals first | rfl | omega | exact hc _ _

theorem mem_enumFrom_ge (L : List _button) :
    ∀ (n : Nat) (ib : Nat × _button), ib ∈ L.enumFrom n → n ≤ ib.1 := by
  induction L with
  | nil => intro n ib h; simp at h
  | cons b L ih =>
    intro n ib h
    rw [List.enumFrom_cons, List.mem_cons] at h
    rcases h with rfl | h
    · exact Nat.le_refl _
    · exact Nat.le_of_succ_le (ih (n + 1) ib h)

theorem mem_enumFrom_snd (L : List _button) :
    ∀ (n : Nat) (ib : Nat × _button), ib ∈ L.enumFrom n → ib.2 ∈ L := by
  induction L with
  | nil => intro n ib h; simp at h
  | cons b L ih =>
    intro n ib h
    rw [List.enumFrom_cons, List.mem_cons] at h
    rcases h with rfl | h
    · exact List.mem_cons_self _ _
    · exact List.mem_cons_of_mem _ (ih (n + 1) ib h)

theorem foldl_ClickBody_eraser (b : _button) (L : List _button) :
    ∀ (n : Nat) (s : App), n ≤ 4 → L[4 - n]? = some b →
      b.surface.hitBox.CheckInbound s.mousePos.1 s.mousePos.2 = true →
      ((L.enumFrom n).foldl ClickBody s).brush.brushColor = s.canvas.bgColor := by
  induction L with
  | nil => intro n s _ h; simp at h
  | cons b0 L ih =>
    intro n s hn hget hin
    rw [List.enumFrom_cons, List.foldl_cons]
    by_cases h4 : n = 4
    · subst h4
      simp only [Nat.sub_self, List.getElem?_cons_zero, Option.some.injEq] at hget
      subst hget
      have hrest := foldl_ClickBody_color_of_ge5 (L.enumFrom 5) (ClickBody s (4, b0))
        (fun ib h => mem_enumFrom_ge L 5 ib h)
      rw [hrest.1]
      simp [ClickBody, hin, _brush.SetColor]
    · have hlt : n < 4 := by omega
      have hidx : 4 - n = (4 - (n + 1)) + 1 := by omega
      rw [hidx, List.getElem?_cons_succ] at hget
      have := ih (n + 1) (ClickBody s (n, b0)) (by omega) hget
        (by rw [ClickBody_mousePos]; exact hin)
      rw [this, ClickBody_canvas]

theorem foldl_ClickBody_single (k : Nat) (b : _button) (L : List _button) :
    ∀ (n : Nat) (s : App), L[k]? = some b →
      (∀ (i : Nat) (b2 : _button), i ≠ k → L[i]? = some b2 →
        b2.surface.hitBox.CheckInbound s.mousePos.1 s.mousePos.2 = false) →
      (L.enumFrom n).foldl ClickBody s = ClickBody s (n + k, b) := by
  induction L generalizing k with
  | nil => intro n s h; simp at h
  | cons b0 L ih =>
    intro n s hget hmiss
    rw [List.enumFrom_cons, List.foldl_cons]
    cases k with
    | zero =>
      simp only [List.getElem?_cons_zero, Option.some.injEq] at hget
      subst hget
      rw [Nat.add_zero]
      apply foldl_ClickBody_miss
      intro ib hib
      rw [ClickBody_mousePos]
      obtain ⟨i, hi⟩ := List.getElem?_of_mem (mem_enumFrom_snd L (n + 1) ib hib)
      exact hmiss (i + 1) ib.2 (by omega) (by rw [List.getElem?_cons_succ]; exact hi)
    | succ k =>
      rw [List.getElem?_cons_succ] at hget
      rw [ClickBody_miss s (n, b0) (hmiss 0 b0 (by omega) (by simp))]
      rw [ih k (n + 1) s hget]
      · congr 2
        omega
      · intro i b2 hik hi
        exact hmiss (i + 1) b2 (by omega) (by rw [List.getElem?_cons_succ]; exact hi)

theorem startApp_buttons :
    startApp.buttons =
      [mkButton 590 10 40 50 { R := 255, G := 0, B := 0 },
       mkButton 590 70 40 50 { R := 0, G := 255, B := 0 },
       mkButton 590 130 40 50 { R := 0, G := 0, B := 255 },
       mkButton 590 190 40 50 { R := 0, G := 0, B := 0 },
       mkButton 590 250 40 50 { R := 255, G := 255, B := 255 },
       mkButton 590 310 40 50 { R := 100, G := 100, B := 100 },
       mkButton 590 370 40 50 { R := 150, G := 150, B := 150 }] := by
  decide

theorem startApp_buttons_box (i : Nat) (b : _button) (h : startApp.buttons[i]? = some b) :
    i < 7 ∧ b.surface.hitBox = { pos := (590, 10 + 60 * (i : Int)), w := 40, h := 50 } := by
  rw [startApp_buttons] at h
  have hi : i < 7 := by
    by_contra hge
    have : 7 ≤ i := by omega
    rw [List.getElem?_eq_none (by simpa using this)] at h
    exact Option.noConfusion h
  refine ⟨hi, ?_⟩
  interval_cases i <;>
    simp only [List.getElem?_cons_zero, List.getElem?_cons_succ, Option.some.injEq] at h <;>
    subst h <;> rfl

/-! ## The claims about `Click` and `AddButtons` -/

/-- C7: when the click point is inside the sidebar and inside the region of the
button at index 4 (so the list has at least 5 buttons), the brush colour after
`Click` is the canvas background colour, whatever button 4's fill colour is and
whichever other buttons contain the point. -/
theorem C7_Click_index4_sets_canvas_background (s : App) (b : _button)
    (hb : s.buttons[4]? = some b)
    (hside : s.sidebar.hitBox.CheckInbound s.mousePos.1 s.mousePos.2 = true)
    (hin : b.surface.hitBox.CheckInbound s.mousePos.1 s.mousePos.2 = true) :
    5 ≤ s.buttons.length ∧ (Click s).brush.brushColor = s.canvas.bgColor := by
  constructor
  · by_contra hlen
    rw [List.getElem?_eq_none (by omega)] at hb
    exact Option.noConfusion hb
  · unfold Click
    rw [if_pos hside]
    exact foldl_ClickBody_eraser b s.buttons 0 s (by omega) hb hin

/-- C7 (witness): with five red buttons stacked on one rectangle and the click
inside it, the brush ends with the white canvas background, not with red. -/
theorem C7_Click_index4_sets_canvas_background_witness :
    stackedScene.buttons[4]? = some (mkButton 590 10 40 50 { R := 255, G := 0, B := 0 }) ∧
    stackedScene.sidebar.hitBox.CheckInbound 600 30 = true ∧
    (mkButton 590 10 40 50 { R := 255, G := 0, B := 0 }).surface.hitBox.CheckInbound 600 30
      = true ∧
    (Click stackedScene).brush.brushColor = { R := 255, G := 255, B := 255 } :=
  ⟨by decide, by decide, by decide,
    (C7_Click_index4_sets_canvas_background stackedScene
      (mkButton 590 10 40 50 { R := 255, G := 0, B := 0 })
      (by decide) (by decide) (by decide)).2⟩

/-- C8 (counterexample): in the startup scene with brush size 2147483647, a
click at `(600, 330)`, inside button 5, leaves the brush size at 1: the `int`
sum wraps to a negative value and is reset. -/
theorem C8_counterexample :
    (sceneWith (600, 330) 2147483647).buttons[5]? =
      some (mkButton 590 310 40 50 { R := 100, G := 100, B := 100 }) ∧
    (mkButton 590 310 40 50 { R := 100, G := 100, B := 100 }).surface.hitBox.CheckInbound
      600 330 = true ∧
    (sceneWith (600, 330) 2147483647).brush.brushSize = 2147483647 ∧
    (Click (sceneWith (600, 330) 2147483647)).brush.brushSize = 1 := by
  decide

/-- C8 (amended): in the startup scene, for every click point inside the region
of button `k` and every brush state (an `int` size at least 1): `k = 0, 1, 2, 3`
set the brush colour to red, green, blue, black and keep the size; `k = 4` sets
the colour to the canvas background `(255, 255, 255)` and keeps the size; `k = 5`
increases the size by exactly 1 when the size is below 2147483647 and keeps the
colour; `k = 6` decreases the size by 1 with a floor of 1 and keeps the colour. -/
theorem C8_Click_startup_button_actions (s : App) (k : Nat) (b : _button)
    (hcanvas : s.canvas = startApp.canvas) (hsidebar : s.sidebar = startApp.sidebar)
    (hbuttons : s.buttons = startApp.buttons)
    (hk : s.buttons[k]? = some b)
    (hin : b.surface.hitBox.CheckInbound s.mousePos.1 s.mousePos.2 = true)
    (hsize : 1 ≤ s.brush.brushSize) (hint : s.brush.brushSize ≤ 2147483647) :
    (k = 0 → (Click s).brush =
      { brushSize := s.brush.brushSize, brushColor := { R := 255, G := 0, B := 0 } }) ∧
    (k = 1 → (Click s).brush =
      { brushSize := s.brush.brushSize, brushColor := { R := 0, G := 255, B := 0 } }) ∧
    (k = 2 → (Click s).brush =
      { brushSize := s.brush.brushSize, brushColor := { R := 0, G := 0, B := 255 } }) ∧
    (k = 3 → (Click s).brush =
      { brushSize := s.brush.brushSize, brushColor := { R := 0, G := 0, B := 0 } }) ∧
    (k = 4 → (Click s).brush =
        { brushSize := s.brush.brushSize, brushColor := { R := 255, G := 255, B := 255 } } ∧
      (Click s).brush.brushColor = s.canvas.bgColor) ∧
    (k = 5 → s.brush.brushSize < 2147483647 → (Click s).brush =
      { brushSize := s.brush.brushSize + 1, brushColor := s.brush.brushColor }) ∧
    (k = 6 → (Click s).brush =
      { brushSize := max 1 (s.brush.brushSize - 1), brushColor := s.brush.brushColor }) ∧
    k < 7 := by
  rw [hbuttons] at hk
  obtain ⟨hk7, hbox⟩ := startApp_buttons_box k b hk
  have hpt := hin
  rw [hbox, button_box_iff k hk7] at hpt
  have hside : s.sidebar.hitBox.CheckInbound s.mousePos.1 s.mousePos.2 = true := by
    rw [hsidebar, sidebar_box_iff]
    omega
  have hmiss : ∀ (i : Nat) (b2 : _button), i ≠ k → startApp.buttons[i]? = some b2 →
      b2.surface.hitBox.CheckInbound s.mousePos.1 s.mousePos.2 = false := by
    intro i b2 hik hi
    obtain ⟨hi7, hbox2⟩ := startApp_buttons_box i b2 hi
    rw [Bool.eq_false_iff]
    intro hc
    rw [hbox2, button_box_iff i hi7] at hc
    omega
  have hclick : Click s = ClickBody s (k, b) := by
    unfold Click
    rw [if_pos hside, hbuttons, List.enum, foldl_ClickBody_single k b _ 0 s hk hmiss,
      Nat.zero_add]
  have hcol : s.canvas.bgColor = { R := 255, G := 255, B := 255 } := by
    rw [hcanvas]; decide
  have hbody : ClickBody s (k, b) =
      if k < 4 then { s with brush := s.brush.SetColor b.surface.bgColor }
      else if k = 4 then { s with brush := s.brush.SetColor s.canvas.bgColor }
      else if k = 5 then { s with brush := s.brush.ChangeSize 1 }
      else if k = 6 then { s with brush := s.brush.ChangeSize (-1) }
      else s := by
    unfold ClickBody
    rw [if_pos hin]
  rw [hclick, hbody, hcol]
  rw [startApp_buttons] at hk
  refine ⟨?_, ?_, ?_, ?_, ?_, ?_, ?_, hk7⟩ <;> intro hk0 <;> subst hk0 <;>
    simp only [List.getElem?_cons_zero, List.getElem?_cons_succ, Option.some.injEq] at hk <;>
    subst hk
  · rfl
  · rfl
  · rfl
  · rfl
  · exact ⟨rfl, rfl⟩
  · intro hlt
    have := ChangeSize_one_of_lt s.brush (by omega) hlt
    simp [this]
  · have := ChangeSize_neg_one s.brush (by omega) hint
    simp [this]

/-- C8 (witness): in the startup scene with brush size 4, a click at `(600, 330)`,
inside button 5, leaves the brush with size 5 and its colour unchanged. -/
theorem C8_Click_startup_button_actions_witness :
    (sceneWith (600, 330) 4).buttons[5]? =
      some (mkButton 590 310 40 50 { R := 100, G := 100, B := 100 }) ∧
    (mkButton 590 310 40 50 { R := 100, G := 100, B := 100 }).surface.hitBox.CheckInbound
      600 330 = true ∧
    ((1 : Int) ≤ (sceneWith (600, 330) 4).brush.brushSize ∧
      (sceneWith (600, 330) 4).brush.brushSize < 2147483647) ∧
    (Click (sceneWith (600, 330) 4)).brush =
      { brushSize := 5, brushColor := { R := 200, G := 200, B := 200 } } :=
  ⟨by decide, by decide, by decide,
    (C8_Click_startup_button_actions (sceneWith (600, 330) 4) 5
      (mkButton 590 310 40 50 { R := 100, G := 100, B := 100 })
      rfl rfl rfl (by decide) (by decide) (by decide) (by decide)).2.2.2.2.2.1 rfl
      (by decide)⟩

/-- C9: `AddButtons`, run on an empty button list, produces exactly 7 buttons;
the button at index `k` has region `x = 590`, `y = 10 + 60 * k`, width 40,
height 50, where `590 = (WIDTH - SIDEBAR_WIDTH) + 10` is 10 px inside the 60 px
sidebar starting at `x = 580`; the fill colours are, in order, red, green, blue,
black, white, gray 100, gray 150. -/
theorem C9_AddButtons_layout (s : App) (h : s.buttons = []) :
    (AddButtons s).buttons.length = 7 ∧
    (∀ k : Nat, k < 7 →
      ((AddButtons s).buttons.map fun b => b.surface.hitBox)[k]? =
        some { pos := (590, 10 + 60 * (k : Int)), w := 40, h := 50 }) ∧
    ((AddButtons s).buttons.map fun b => b.surface.bgColor) =
      [{ R := 255, G := 0, B := 0 }, { R := 0, G := 255, B := 0 },
       { R := 0, G := 0, B := 255 }, { R := 0, G := 0, B := 0 },
       { R := 255, G := 255, B := 255 }, { R := 100, G := 100, B := 100 },
       { R := 150, G := 150, B := 150 }] ∧
    WIDTH - SIDEBAR_WIDTH = 580 ∧ SIDEBAR_WIDTH = 60 ∧
    (590 : Int) = (WIDTH - SIDEBAR_WIDTH) + 10 := by
  have hb : (AddButtons s).buttons =
      [mkButton 590 10 40 50 { R := 255, G := 0, B := 0 },
       mkButton 590 70 40 50 { R := 0, G := 255, B := 0 },
       mkButton 590 130 40 50 { R := 0, G := 0, B := 255 },
       mkButton 590 190 40 50 { R := 0, G := 0, B := 0 },
       mkButton 590 250 40 50 { R := 255, G := 255, B := 255 },
       mkButton 590 310 40 50 { R := 100, G := 100, B := 100 },
       mkButton 590 370 40 50 { R := 150, G := 150, B := 150 }] := by
    unfold AddButtons
    rw [h]
    rfl
  rw [hb]
  refine ⟨rfl, ?_, rfl, by decide, by decide, by decide⟩
  intro k hk
  interval_cases k <;> rfl

/-- C9 (witness): the initial program state has an empty button list, and
`AddButtons` gives it 7 buttons. -/
theorem C9_AddButtons_layout_witness :
    initApp.buttons = [] ∧ (AddButtons initApp).buttons.length = 7 :=
  ⟨rfl, (C9_AddButtons_layout initApp rfl).1⟩

/-- C10: when the click point is not inside the sidebar region, or is inside the
sidebar but inside no button's region, `Click` is the identity on the program
state: brush colour and size are unchanged and no pixel is painted. -/
theorem C10_Click_outside_noop (s : App)
    (h : s.sidebar.hitBox.CheckInbound s.mousePos.1 s.mousePos.2 = false ∨
      (s.sidebar.hitBox.CheckInbound s.mousePos.1 s.mousePos.2 = true ∧
        ∀ b ∈ s.buttons, b.surface.hitBox.CheckInbound s.mousePos.1 s.mousePos.2 = false)) :
    Click s = s ∧
      (Click s).brush.brushColor = s.brush.brushColor ∧
      (Click s).brush.brushSize = s.brush.brushSize ∧
      plotted (newCalls s.renderer (Click s).renderer) = [] := by
  have hid : Click s = s := by
    unfold Click
    rcases h with h | ⟨h, hb⟩
    · simp [h]
    · rw [if_pos h]
      apply foldl_ClickBody_miss
      intro ib hib
      exact hb ib.2 (mem_enumFrom_snd s.buttons 0 ib hib)
  rw [hid, newCalls_self]
  exact ⟨rfl, rfl, rfl, rfl⟩

/-- C10 (witness): in the startup scene the point `(600, 65)` is inside the
sidebar, in the gap between buttons 0 and 1, and `Click` changes nothing. -/
theorem C10_Click_outside_noop_witness :
    ((sceneWith (600, 65) 4).sidebar.hitBox.CheckInbound 600 65 = true ∧
      ∀ b ∈ (sceneWith (600, 65) 4).buttons,
        b.surface.hitBox.CheckInbound 600 65 = false) ∧
    Click (sceneWith (600, 65) 4) = sceneWith (600, 65) 4 :=
  ⟨by decide, (C10_Click_outside_noop (sceneWith (600, 65) 4) (Or.inr (by decide))).1⟩

/-! ## Auxiliary lemmas about the event loop and the raster surface -/

theorem ClickBody_hit (s : App) (ib : Nat × _button)
    (h : ib.2.surface.hitBox.CheckInbound s.mousePos.1 s.mousePos.2 = true) :
    ClickBody s ib = { s with brush := ordinalAction s.canvas.bgColor s.brush ib } := by
  obtain ⟨i, b⟩ := ib
  unfold ClickBody
  rw [if_pos h]
  match i with
  | 0 | 1 | 2 | 3 | 4 | 5 | 6 => rfl
  | n + 7 =>
    have h1 : ¬ (n + 7 < 4) := by omega
    have h2 : ¬ (n + 7 = 4) := by omega
    have h3 : ¬ (n + 7 = 5) := by omega
    have h4 : ¬ (n + 7 = 6) := by omega
    simp only [h1, h2, h3, h4, if_false]
    rfl

theorem foldl_ClickBody_eq (L : List (Nat × _button)) :
    ∀ s : App, L.foldl ClickBody s =
      { s with brush := (List.foldl (ordinalAction s.canvas.bgColor) s.brush
          (L.filter fun ib => ib.2.surface.hitBox.CheckInbound s.mousePos.1 s.mousePos.2)) } := by
  induction L with
  | nil => intro s; rfl
  | cons ib L ih =>
    intro s
    rw [List.foldl_cons]
    cases h : ib.2.surface.hitBox.CheckInbound s.mousePos.1 s.mousePos.2 with
    | false =>
      rw [ClickBody_miss s ib h, ih s, List.filter_cons_of_neg (by simp [h])]
    | true =>
      rw [ClickBody_hit s ib h, ih, List.filter_cons_of_pos (by simp [h])]
      rfl

theorem Click_eq_of_sidebar (s : App)
    (h : s.sidebar.hitBox.CheckInbound s.mousePos.1 s.mousePos.2 = true) :
    Click s =
      { s with brush := (List.foldl (ordinalAction s.canvas.bgColor) s.brush
          (hitButtons s.buttons s.mousePos.1 s.mousePos.2)) } := by
  unfold Click hitButtons
  rw [if_pos h, foldl_ClickBody_eq]

theorem Click_frame (s : App) : Click s = { s with brush := (Click s).brush } := by
  cases h : s.sidebar.hitBox.CheckInbound s.mousePos.1 s.mousePos.2 with
  | false =>
    have : Click s = s := by unfold Click; simp [h]
    rw [this]
  | true => rw [Click_eq_of_sidebar s h]

theorem ordinalAction_ge_one (bg : _color) (br : _brush) (ib : Nat × _button)
    (h : 1 ≤ br.brushSize) : 1 ≤ (ordinalAction bg br ib).brushSize := by
  obtain ⟨i, b⟩ := ib
  unfold ordinalAction
  match i with
  | 0 | 1 | 2 | 3 | 4 => exact h
  | 5 => exact ChangeSize_ge_one _ _
  | 6 => exact ChangeSize_ge_one _ _
  | n + 7 => exact h

theorem foldl_ordinalAction_ge_one (bg : _color) (L : List (Nat × _button)) :
    ∀ br : _brush, 1 ≤ br.brushSize → 1 ≤ (L.foldl (ordinalAction bg) br).brushSize := by
  induction L with
  | nil => intro br h; exact h
  | cons ib L ih =>
    intro br h
    rw [List.foldl_cons]
    exact ih _ (ordinalAction_ge_one bg br ib h)

theorem Click_ge_one (s : App) (h : 1 ≤ s.brush.brushSize) :
    1 ≤ (Click s).brush.brushSize := by
  cases hs : s.sidebar.hitBox.CheckInbound s.mousePos.1 s.mousePos.2 with
  | false =>
    have : Click s = s := by unfold Click; simp [hs]
    rw [this]; exact h
  | true =>
    rw [Click_eq_of_sidebar s hs]
    exact foldl_ordinalAction_ge_one _ _ _ h

theorem Draw_brush (s : App) : (_brush.Draw s).brush = s.brush := by
  unfold _brush.Draw
  split <;> rfl

theorem FrameUpdateBody_ge_one (s : App) (inp : Input) (h : 1 ≤ s.brush.brushSize) :
    1 ≤ (FrameUpdateBody s inp).2.brush.brushSize := by
  obtain ⟨ev, ms⟩ := inp
  unfold FrameUpdateBody
  match ev with
  | none => exact h
  | some SDL_Event.SDL_QUIT => exact h
  | some SDL_Event.other => exact h
  | some (SDL_Event.SDL_MOUSEMOTION state) =>
    dsimp only
    split
    · rw [Draw_brush]; exact h
    · exact h
  | some (SDL_Event.SDL_MOUSEBUTTONDOWN button) =>
    dsimp only
    split
    · exact Click_ge_one s h
    · exact h
  | some (SDL_Event.SDL_KEYDOWN sym) =>
    dsimp only
    split_ifs
    · exact h
    · exact h
    · exact ChangeSize_ge_one _ _
    · exact ChangeSize_ge_one _ _
    · exact h

theorem FrameUpdate_ge_one (inputs : List Input) :
    ∀ s : App, 1 ≤ s.brush.brushSize → 1 ≤ (FrameUpdate s inputs).2.brush.brushSize := by
  induction inputs with
  | nil => intro s h; exact h
  | cons inp rest ih =>
    intro s h
    unfold FrameUpdate
    have hb := FrameUpdateBody_ge_one s inp h
    rcases hst : FrameUpdateBody s inp with ⟨st, s2⟩
    rw [hst] at hb
    cases st with
    | Running => exact ih s2 hb
    | Terminated => exact hb

theorem plotCalls_cons (c : _color) (p : Int × Int) (ps : List (Int × Int)) :
    plotCalls c (p :: ps) = plotCalls c ps ++ [SDLCall.DrawPoint p.1 p.2 c] := by
  simp [plotCalls]

theorem pixelAt_plotCalls_append (c : _color) (x y : Int) (ps : List (Int × Int)) :
    ∀ rest : List SDLCall,
      pixelAt (plotCalls c ps ++ rest) x y =
        if (x, y) ∈ ps then some c else pixelAt rest x y := by
  induction ps with
  | nil => intro rest; simp [plotCalls]
  | cons p ps ih =>
    intro rest
    rw [plotCalls_cons, List.append_assoc, ih]
    by_cases h1 : (x, y) ∈ ps
    · rw [if_pos h1, if_pos (List.mem_cons_of_mem _ h1)]
    · rw [if_neg h1]
      show pixelAt (SDLCall.DrawPoint p.1 p.2 c :: rest) x y = _
      rw [pixelAt]
      by_cases h2 : p.1 = x ∧ p.2 = y
      · rw [if_pos h2]
        have : (x, y) = p := by
          obtain ⟨h3, h4⟩ := h2
          exact Prod.ext h3.symm h4.symm
        rw [if_pos (by rw [this]; exact List.mem_cons_self _ _)]
      · rw [if_neg h2]
        have : (x, y) ∉ p :: ps := by
          intro hm
          rcases List.mem_cons.mp hm with h3 | h3
          · exact h2 ⟨by rw [← h3], by rw [← h3]⟩
          · exact h1 h3
        rw [if_neg this]

theorem Draw_calls (s : App)
    (h : s.canvas.hitBox.CheckInbound s.mousePos.1 s.mousePos.2 = true) :
    (_brush.Draw s).renderer.calls =
      SDLCall.Present ::
        (plotCalls
          { R := s.brush.brushColor.R % 256, G := s.brush.brushColor.G % 256,
            B := s.brush.brushColor.B % 256 }
          (circlePixels s.canvas s.brush.brushSize s.mousePos.1 s.mousePos.2) ++
        s.renderer.calls) := by
  unfold _brush.Draw
  rw [if_pos h]
  simp [DrawCircle_eq, SDL_RenderPresent, SDL_SetRenderDrawColor]

theorem centre_mem_circlePixels (canvas : _surface) (r x y : Int)
    (hc : canvas.hitBox = { pos := (0, 0), w := 580, h := 480 })
    (hr1 : 1 ≤ r) (hr : r ≤ 46340)
    (h : canvas.hitBox.CheckInbound x y = true) : (x, y) ∈ circlePixels canvas r x y := by
  have hp := (CheckInbound_startup_iff _ x y hc).mp h
  rw [mem_circlePixels_startup canvas r x y x y hc ⟨hp.1, hp.2.1⟩ ⟨hp.2.2.1, hp.2.2.2⟩ hr1 hr]
  refine ⟨⟨by omega, by omega⟩, ⟨by omega, by omega⟩, h, ?_⟩
  rw [sub_self, sub_self]
  nlinarith

theorem inRange_mod (c : _color) (h : c.inRange) :
    ({ R := c.R % 256, G := c.G % 256, B := c.B % 256 } : _color) = c := by
  obtain ⟨⟨h1, h2⟩, ⟨h3, h4⟩, h5, h6⟩ := h
  rw [Int.emod_eq_of_lt h1 h2, Int.emod_eq_of_lt h3 h4, Int.emod_eq_of_lt h5 h6]

/-! ## The claims about the event loop -/

/-- C11: processing one button-press event (the primary button or any other)
leaves the loop running, leaves the renderer and with it every pixel of the
raster surface unchanged, and does not change the pointer position; the brush
is the only part of the program state that may change. -/
theorem C11_button_press_changes_brush_only (s : App) (button : Nat) (ms : Int × Int) :
    (FrameUpdateBody s (pressInput button ms)).1 = LoopState.Running ∧
    (FrameUpdateBody s (pressInput button ms)).2 =
      { s with brush := (FrameUpdateBody s (pressInput button ms)).2.brush } ∧
    (FrameUpdateBody s (pressInput button ms)).2.renderer = s.renderer ∧
    (∀ x y : Int,
      pixelAt (FrameUpdateBody s (pressInput button ms)).2.renderer.calls x y =
        pixelAt s.renderer.calls x y) ∧
    (FrameUpdateBody s (pressInput button ms)).2.mousePos = s.mousePos ∧
    (button = SDL_BUTTON_LMASK → (FrameUpdateBody s (pressInput button ms)).2 = Click s) := by
  have hstep : FrameUpdateBody s (pressInput button ms) =
      if button = SDL_BUTTON_LMASK then (LoopState.Running, Click s)
      else (LoopState.Running, s) := rfl
  rw [hstep]
  by_cases hb : button = SDL_BUTTON_LMASK
  · rw [if_pos hb]
    have hf := Click_frame s
    refine ⟨rfl, hf, ?_, ?_, ?_, fun _ => rfl⟩
    · dsimp only; rw [hf]
    · intro x y; dsimp only; rw [hf]
    · dsimp only; rw [hf]
  · rw [if_neg hb]
    exact ⟨rfl, rfl, rfl, fun _ _ => rfl, rfl, fun h => absurd h hb⟩

/-- C12 (counterexample): in the startup scene a pointer-move event whose button
mask is 5 (left and right button held, so the primary-button bit is set) with
the pointer at `(100, 100)` inside the canvas issues no drawing call, and the
pixel at `(100, 100)` does not hold the brush colour afterwards. -/
theorem C12_counterexample :
    Nat.testBit 5 0 = true ∧
    startApp.canvas.hitBox.CheckInbound 100 100 = true ∧
    (FrameUpdateBody startApp (motionInput 5 (100, 100))).2.renderer = startApp.renderer ∧
    pixelAt (FrameUpdateBody startApp (motionInput 5 (100, 100))).2.renderer.calls 100 100 ≠
      some startApp.brush.brushColor := by
  refine ⟨by decide, by decide, by decide, by decide⟩

/-- C12 (amended): for every application state of the program's scene (startup
canvas, brush size from 1 to 46340, brush colour channels within 0..255) and
every pointer-move event whose button mask is exactly the primary-button mask,
with the new pointer position inside the canvas, processing the event records
the new position and paints the brush disk there: the pixels plotted are those
of the rasteriser for the brush size around the new position, and the pixel at
the new position holds the brush colour. -/
theorem C12_left_only_motion_paints (s : App) (state : Nat) (p : Int × Int)
    (hmask : state = SDL_BUTTON_LMASK)
    (hcanvas : s.canvas.hitBox = startApp.canvas.hitBox)
    (hin : s.canvas.hitBox.CheckInbound p.1 p.2 = true)
    (hsize : 1 ≤ s.brush.brushSize) (hmax : s.brush.brushSize ≤ 46340)
    (hcol : s.brush.brushColor.inRange) :
    (FrameUpdateBody s (motionInput state p)).1 = LoopState.Running ∧
    (FrameUpdateBody s (motionInput state p)).2.mousePos = p ∧
    (FrameUpdateBody s (motionInput state p)).2.prevPos = s.mousePos ∧
    (∀ i j : Int,
      (i, j) ∈ plotted (newCalls s.renderer
          (FrameUpdateBody s (motionInput state p)).2.renderer) ↔
        (p.1 - s.brush.brushSize + 1 ≤ i ∧ i < p.1 + s.brush.brushSize) ∧
        (p.2 - s.brush.brushSize + 1 ≤ j ∧ j < p.2 + s.brush.brushSize) ∧
        s.canvas.hitBox.CheckInbound i j = true ∧
        (i - p.1) ^ 2 + (j - p.2) ^ 2 ≤ s.brush.brushSize ^ 2) ∧
    pixelAt (FrameUpdateBody s (motionInput state p)).2.renderer.calls p.1 p.2 =
      some s.brush.brushColor := by
  subst hmask
  have hc := hcanvas.trans startApp_canvas_hitBox
  have hp := (CheckInbound_startup_iff _ _ _ hc).mp hin
  have hstep : FrameUpdateBody s (motionInput SDL_BUTTON_LMASK p) =
      (LoopState.Running, _brush.Draw { s with prevPos := s.mousePos, mousePos := p }) := rfl
  rw [hstep]
  refine ⟨rfl, ?_, ?_, ?_, ?_⟩
  · unfold _brush.Draw
    dsimp only
    rw [if_pos hin]
  · unfold _brush.Draw
    dsimp only
    rw [if_pos hin]
  · intro i j
    have := mem_plotted_Draw { s with prevPos := s.mousePos, mousePos := p } i j
    dsimp only at this
    dsimp only
    rw [this, mem_circlePixels_startup _ _ _ _ _ _ hc ⟨hp.1, hp.2.1⟩ ⟨hp.2.2.1, hp.2.2.2⟩
      hsize hmax, sq, sq, sq]
    constructor
    · rintro ⟨_, h⟩; exact h
    · intro h; exact ⟨hin, h⟩
  · dsimp only
    rw [Draw_calls _ hin, pixelAt]
    dsimp only
    rw [pixelAt_plotCalls_append,
      if_pos (centre_mem_circlePixels _ _ _ _ hc hsize hmax hin), inRange_mod _ hcol]

/-- C12 (witness): in the startup scene a pointer-move event with only the left
button held and the pointer at `(100, 100)` leaves the brush colour
`(200, 200, 200)` at that pixel. -/
theorem C12_left_only_motion_paints_witness :
    (1 : Nat) = SDL_BUTTON_LMASK ∧
    startApp.canvas.hitBox.CheckInbound 100 100 = true ∧
    ((1 : Int) ≤ startApp.brush.brushSize ∧ startApp.brush.brushSize ≤ 46340) ∧
    startApp.brush.brushColor.inRange ∧
    pixelAt (FrameUpdateBody startApp (motionInput 1 (100, 100))).2.renderer.calls 100 100 =
      some { R := 200, G := 200, B := 200 } :=
  ⟨rfl, by decide, by decide, by decide,
    (C12_left_only_motion_paints startApp 1 (100, 100) rfl rfl (by decide) (by decide)
      (by decide) (by decide)).2.2.2.2⟩

theorem FrameUpdate_terminated_iff (inputs : List Input) :
    ∀ s : App, (FrameUpdate s inputs).1 = LoopState.Terminated ↔
      ∃ inp ∈ inputs, inp.event = some SDL_Event.SDL_QUIT := by
  have hbody : ∀ (s : App) (inp : Input),
      (FrameUpdateBody s inp).1 = LoopState.Terminated ↔
        inp.event = some SDL_Event.SDL_QUIT := by
    intro s inp
    obtain ⟨ev, ms⟩ := inp
    unfold FrameUpdateBody
    match ev with
    | none => simp
    | some SDL_Event.SDL_QUIT => simp
    | some SDL_Event.other => simp
    | some (SDL_Event.SDL_MOUSEMOTION state) => dsimp only; split <;> simp
    | some (SDL_Event.SDL_MOUSEBUTTONDOWN button) => dsimp only; split <;> simp
    | some (SDL_Event.SDL_KEYDOWN sym) => dsimp only; split_ifs <;> simp
  induction inputs with
  | nil => intro s; simp [FrameUpdate]
  | cons inp rest ih =>
    intro s
    unfold FrameUpdate
    have hb := hbody s inp
    rcases hst : FrameUpdateBody s inp with ⟨st, s2⟩
    rw [hst] at hb
    cases st with
    | Running =>
      dsimp only
      rw [ih s2]
      have hne : inp.event ≠ some SDL_Event.SDL_QUIT := fun h => by
        have := hb.mpr h
        exact LoopState.noConfusion this
      simp [hne]
    | Terminated =>
      dsimp only
      have := hb.mp rfl
      simp [this]

/-- C13 (counterexample): in the startup scene a key-press event whose key code
is `+` leaves the brush size at 4. -/
theorem C13_counterexample :
    (FrameUpdateBody startApp (keyInput SDLK_PLUS (0, 0))).2.brush.brushSize = 4 ∧
    startApp.brush.brushSize = 4 := by
  exact ⟨by decide, by decide⟩

/-- C13 (amended): for every application state (brush size at least 1 and below
2147483647) a key-press event whose key code is `=` increases the brush size by
exactly 1 and leaves the brush colour, the renderer and so every pixel
unchanged; a key-press event whose key code is `+` leaves the whole program
state unchanged. -/
theorem C13_equals_key_grows_brush (s : App) (ms : Int × Int)
    (hsize : 1 ≤ s.brush.brushSize) (hmax : s.brush.brushSize < 2147483647) :
    (FrameUpdateBody s (keyInput SDLK_EQUALS ms)).2.brush.brushSize =
      s.brush.brushSize + 1 ∧
    (FrameUpdateBody s (keyInput SDLK_EQUALS ms)).2.brush.brushColor =
      s.brush.brushColor ∧
    (FrameUpdateBody s (keyInput SDLK_EQUALS ms)).2.renderer = s.renderer ∧
    (∀ x y : Int,
      pixelAt (FrameUpdateBody s (keyInput SDLK_EQUALS ms)).2.renderer.calls x y =
        pixelAt s.renderer.calls x y) ∧
    FrameUpdateBody s (keyInput SDLK_PLUS ms) = (LoopState.Running, s) := by
  have hstep : FrameUpdateBody s (keyInput SDLK_EQUALS ms) =
      (LoopState.Running, { s with brush := s.brush.ChangeSize 1 }) := rfl
  rw [hstep, ChangeSize_one_of_lt s.brush (by omega) hmax]
  exact ⟨rfl, rfl, rfl, fun _ _ => rfl, rfl⟩

/-- C13 (witness): in the startup scene, brush size 4, the key `=` gives size 5. -/
theorem C13_equals_key_grows_brush_witness :
    ((1 : Int) ≤ startApp.brush.brushSize ∧ startApp.brush.brushSize < 2147483647) ∧
    (FrameUpdateBody startApp (keyInput SDLK_EQUALS (0, 0))).2.brush.brushSize = 4 + 1 :=
  ⟨by decide, (C13_equals_key_grows_brush startApp (0, 0) (by decide) (by decide)).1⟩

/-- C14: for every application state of the startup scene, after a key-press of
`R` every pixel of the canvas rectangle `0 ≤ x < 580`, `0 ≤ y < 480` holds the
canvas background colour, in particular every pixel the canvas region contains;
the brush is unchanged, and every pixel outside the rectangle is unchanged. -/
theorem C14_R_key_clears_canvas (s : App) (ms : Int × Int)
    (hscene : s.canvas = startApp.canvas) :
    (∀ i j : Int, 0 ≤ i ∧ i < 580 ∧ 0 ≤ j ∧ j < 480 →
      pixelAt (FrameUpdateBody s (keyInput SDLK_r ms)).2.renderer.calls i j =
        some { R := 255, G := 255, B := 255 }) ∧
    (∀ i j : Int, s.canvas.hitBox.CheckInbound i j = true →
      pixelAt (FrameUpdateBody s (keyInput SDLK_r ms)).2.renderer.calls i j =
        some s.canvas.bgColor) ∧
    (FrameUpdateBody s (keyInput SDLK_r ms)).2.brush = s.brush ∧
    (∀ i j : Int, ¬ (0 ≤ i ∧ i < 580 ∧ 0 ≤ j ∧ j < 480) →
      pixelAt (FrameUpdateBody s (keyInput SDLK_r ms)).2.renderer.calls i j =
        pixelAt s.renderer.calls i j) := by
  have hcanvas : startApp.canvas =
      { hitBox := { pos := (0, 0), w := 580, h := 480 },
        bgColor := { R := 255, G := 255, B := 255 } } := by decide
  have hstep : FrameUpdateBody s (keyInput SDLK_r ms) =
      (LoopState.Running, { s with renderer := s.canvas.DrawSurface s.renderer }) := rfl
  have hcalls : (s.canvas.DrawSurface s.renderer).calls =
      SDLCall.Present ::
        SDLCall.FillRect 0 0 580 480 { R := 255, G := 255, B := 255 } :: s.renderer.calls := by
    rw [hscene, hcanvas]
    rfl
  have hpix : ∀ i j : Int,
      pixelAt (FrameUpdateBody s (keyInput SDLK_r ms)).2.renderer.calls i j =
        if 0 ≤ i ∧ i < 0 + 580 ∧ 0 ≤ j ∧ j < 0 + 480 then
          some { R := 255, G := 255, B := 255 }
        else pixelAt s.renderer.calls i j := by
    intro i j
    rw [hstep]
    dsimp only
    rw [hcalls, pixelAt, pixelAt]
  refine ⟨?_, ?_, ?_, ?_⟩
  · intro i j h
    rw [hpix, if_pos (by omega)]
  · intro i j h
    have hbox : s.canvas.hitBox = { pos := (0, 0), w := 580, h := 480 } := by
      rw [hscene, hcanvas]
    have hb := (CheckInbound_startup_iff _ i j hbox).mp h
    rw [hpix, if_pos (by omega), hscene, hcanvas]
  · rw [hstep]
  · intro i j h
    rw [hpix, if_neg (by omega)]

/-- C14 (witness): after one stroke at `(100, 100)` in the startup scene and a
key-press of `R`, the pixel `(100, 100)` is white again. -/
theorem C14_R_key_clears_canvas_witness :
    paintedScene.canvas = startApp.canvas ∧
    pixelAt paintedScene.renderer.calls 100 100 = some { R := 200, G := 200, B := 200 } ∧
    pixelAt (FrameUpdateBody paintedScene (keyInput SDLK_r (100, 100))).2.renderer.calls
      100 100 = some { R := 255, G := 255, B := 255 } :=
  ⟨by decide, by decide,
    (C14_R_key_clears_canvas paintedScene (100, 100) (by decide)).1 100 100 (by decide)⟩

/-- C15: the brush size starts at 4, and in every state that the event loop
reaches from the initial state by a finite sequence of inputs (pointer moves,
button presses, key presses, any other event, no event) it is at least 1. -/
theorem C15_brush_size_at_least_one (inputs : List Input) :
    startApp.brush.brushSize = 4 ∧
    1 ≤ (FrameUpdate startApp inputs).2.brush.brushSize := by
  have h4 : startApp.brush.brushSize = 4 := by decide
  exact ⟨h4, FrameUpdate_ge_one inputs startApp (by rw [h4]; decide)⟩

/-- C16: one loop iteration, started in `Running`, yields `Terminated` if and
only if the polled event is the quit signal; every other event and the absence
of an event leave the loop `Running`, and the quit step leaves the program state
as it is.  Hence the loop over a sequence of inputs ends `Terminated` exactly
when one of the inputs is the quit signal. -/
theorem C16_terminates_only_on_quit (s : App) (inp : Input) (inputs : List Input) :
    ((FrameUpdateBody s inp).1 = LoopState.Terminated ↔
      inp.event = some SDL_Event.SDL_QUIT) ∧
    ((FrameUpdateBody s inp).1 = LoopState.Running ↔
      inp.event ≠ some SDL_Event.SDL_QUIT) ∧
    ((FrameUpdate s inputs).1 = LoopState.Terminated ↔
      ∃ i ∈ inputs, i.event = some SDL_Event.SDL_QUIT) := by
  have h1 := FrameUpdate_terminated_iff [inp] s
  have h2 : (FrameUpdate s [inp]).1 = (FrameUpdateBody s inp).1 := by
    unfold FrameUpdate
    rcases hst : FrameUpdateBody s inp with ⟨st, s2⟩
    cases st <;> rfl
  rw [h2] at h1
  have h3 : (FrameUpdateBody s inp).1 = LoopState.Terminated ↔
      inp.event = some SDL_Event.SDL_QUIT := by
    rw [h1]; simp
  refine ⟨h3, ?_, FrameUpdate_terminated_iff inputs s⟩
  rw [Ne, ← h3]
  cases (FrameUpdateBody s inp).1 <;> simp

/-! ## Auxiliary lemmas about overlapping buttons -/

theorem ClickBody_size_of_lt5 (s : App) (ib : Nat × _button) (h : ib.1 < 5) :
    (ClickBody s ib).brush.brushSize = s.brush.brushSize := by
  unfold ClickBody
  split_ifs
  all_goals first | rfl | omega

theorem ClickBody_of_ge7 (s : App) (ib : Nat × _button) (h : 7 ≤ ib.1) :
    ClickBody s ib = s := by
  unfold ClickBody
  split_ifs
  all_goals first | rfl | omega

theorem foldl_ClickBody_of_ge7 (L : List (Nat × _button)) :
    ∀ s : App, (∀ ib ∈ L, 7 ≤ ib.1) → L.foldl ClickBody s = s := by
  induction L with
  | nil => intro s _; rfl
  | cons ib L ih =>
    intro s h
    rw [List.foldl_cons, ClickBody_of_ge7 s ib (h ib (List.mem_cons_self _ _))]
    exact ih s fun ib2 h2 => h ib2 (List.mem_cons_of_mem _ h2)

theorem ChangeSize_brushSize_congr (b1 b2 : _brush) (c : Int)
    (h : b1.brushSize = b2.brushSize) :
    (b1.ChangeSize c).brushSize = (b2.ChangeSize c).brushSize := by
  unfold _brush.ChangeSize
  dsimp only
  rw [h]
  split <;> rfl

theorem Click_size_of_hit_5_6 (s : App) (b5 b6 : _button)
    (hside : s.sidebar.hitBox.CheckInbound s.mousePos.1 s.mousePos.2 = true)
    (h5 : s.buttons[5]? = some b5) (h6 : s.buttons[6]? = some b6)
    (hin5 : b5.surface.hitBox.CheckInbound s.mousePos.1 s.mousePos.2 = true)
    (hin6 : b6.surface.hitBox.CheckInbound s.mousePos.1 s.mousePos.2 = true) :
    (Click s).brush.brushSize = ((s.brush.ChangeSize 1).ChangeSize (-1)).brushSize := by
  have key : ∀ (rest : List _button) (t : App), t.mousePos = s.mousePos →
      t.brush.brushSize = s.brush.brushSize →
      ((List.enumFrom 7 rest).foldl ClickBody
        (ClickBody (ClickBody t (5, b5)) (6, b6))).brush.brushSize =
        ((s.brush.ChangeSize 1).ChangeSize (-1)).brushSize := by
    intro rest t hm hsz
    rw [foldl_ClickBody_of_ge7 _ _ (fun ib h => mem_enumFrom_ge rest 7 ib h)]
    have e5 : ClickBody t (5, b5) = { t with brush := t.brush.ChangeSize 1 } :=
      ClickBody_hit t (5, b5) (by rw [hm]; exact hin5)
    rw [e5]
    have e6 : ClickBody { t with brush := t.brush.ChangeSize 1 } (6, b6) =
        { t with brush := (t.brush.ChangeSize 1).ChangeSize (-1) } :=
      ClickBody_hit { t with brush := t.brush.ChangeSize 1 } (6, b6) (by rw [hm]; exact hin6)
    rw [e6]
    exact ChangeSize_brushSize_congr _ _ _ (ChangeSize_brushSize_congr _ _ _ hsz)
  unfold Click
  rw [if_pos hside]
  rcases hL : s.buttons with
    _ | ⟨a0, _ | ⟨a1, _ | ⟨a2, _ | ⟨a3, _ | ⟨a4, _ | ⟨c5, _ | ⟨c6, rest⟩⟩⟩⟩⟩⟩⟩
  all_goals rw [hL] at h5 h6
  all_goals try (simp at h5 h6; done)
  simp only [List.getElem?_cons_succ, List.getElem?_cons_zero, Option.some.injEq] at h5 h6
  subst h5 h6
  simp only [List.enum, List.enumFrom_cons, List.foldl_cons]
  apply key
  · simp only [ClickBody_mousePos]
  · rw [ClickBody_size_of_lt5 _ _ (by dsimp only; omega),
      ClickBody_size_of_lt5 _ _ (by dsimp only; omega),
      ClickBody_size_of_lt5 _ _ (by dsimp only; omega),
      ClickBody_size_of_lt5 _ _ (by dsimp only; omega),
      ClickBody_size_of_lt5 _ _ (by dsimp only; omega)]

theorem foldl_ClickBody_color_of_miss_le4 (L : List (Nat × _button)) :
    ∀ s : App,
      (∀ ib ∈ L, ib.1 ≤ 4 →
        ib.2.surface.hitBox.CheckInbound s.mousePos.1 s.mousePos.2 = false) →
      (L.foldl ClickBody s).brush.brushColor = s.brush.brushColor := by
  induction L with
  | nil => intro s _; rfl
  | cons ib L ih =>
    intro s h
    rw [List.foldl_cons]
    rw [ih (ClickBody s ib) (by
      intro ib2 h2 hle
      rw [ClickBody_mousePos]
      exact h ib2 (List.mem_cons_of_mem _ h2) hle)]
    by_cases hle : ib.1 ≤ 4
    · rw [ClickBody_miss s ib (h ib (List.mem_cons_self _ _) hle)]
    · exact (foldl_ClickBody_color_of_ge5 [ib] s (by
        intro ib2 h2
        rw [List.mem_singleton.mp h2]
        omega)).1

theorem Click_color_of_hit_0_1 (s : App) (b0 b1 : _button)
    (hside : s.sidebar.hitBox.CheckInbound s.mousePos.1 s.mousePos.2 = true)
    (h0 : s.buttons[0]? = some b0) (h1 : s.buttons[1]? = some b1)
    (hin1 : b1.surface.hitBox.CheckInbound s.mousePos.1 s.mousePos.2 = true)
    (hmiss : ∀ (i : Nat) (b : _button), 2 ≤ i → i ≤ 4 → s.buttons[i]? = some b →
      b.surface.hitBox.CheckInbound s.mousePos.1 s.mousePos.2 = false) :
    (Click s).brush.brushColor = b1.surface.bgColor := by
  unfold Click
  rw [if_pos hside]
  rcases hL : s.buttons with _ | ⟨c0, _ | ⟨c1, rest⟩⟩
  all_goals rw [hL] at h0 h1
  all_goals try (simp at h0 h1; done)
  simp only [List.getElem?_cons_succ, List.getElem?_cons_zero, Option.some.injEq] at h0 h1
  subst h0 h1
  simp only [List.enum, List.enumFrom_cons, List.foldl_cons]
  rw [foldl_ClickBody_color_of_miss_le4]
  · rw [ClickBody_hit _ (1, c1) (by rw [ClickBody_mousePos]; exact hin1)]
    rfl
  · intro ib hib hle
    simp only [ClickBody_mousePos]
    obtain ⟨i, b⟩ := ib
    have hmem := List.mk_mem_enumFrom_iff_le_and_getElem?_sub.mp hib
    apply hmiss i b hmem.1 hle
    rw [hL]
    obtain ⟨k, rfl⟩ : ∃ k, i = k + 2 := ⟨i - 2, by omega⟩
    simpa using hmem.2

theorem filter_enumFrom_single (p : _button → Bool) (k : Nat) (b : _button)
    (L : List _button) :
    ∀ n : Nat, L[k]? = some b → p b = true →
      (∀ (i : Nat) (b2 : _button), i ≠ k → L[i]? = some b2 → p b2 = false) →
      (L.enumFrom n).filter (fun ib => p ib.2) = [(n + k, b)] := by
  induction L generalizing k with
  | nil => intro n h; simp at h
  | cons b0 L ih =>
    intro n hget hp hmiss
    rw [List.enumFrom_cons]
    cases k with
    | zero =>
      simp only [List.getElem?_cons_zero, Option.some.injEq] at hget
      subst hget
      rw [List.filter_cons_of_pos (by simpa using hp), Nat.add_zero]
      congr 1
      rw [List.filter_eq_nil_iff]
      intro ib hib
      obtain ⟨i, hi⟩ := List.getElem?_of_mem (mem_enumFrom_snd L (n + 1) ib hib)
      have := hmiss (i + 1) ib.2 (by omega) (by rw [List.getElem?_cons_succ]; exact hi)
      simp [this]
    | succ k =>
      rw [List.getElem?_cons_succ] at hget
      have h0 := hmiss 0 b0 (by omega) (by simp)
      rw [List.filter_cons_of_neg (by simp [h0]), ih k (n + 1) hget hp]
      · congr 2
        omega
      · intro i b2 hik hi
        exact hmiss (i + 1) b2 (by omega) (by rw [List.getElem?_cons_succ]; exact hi)

theorem ChangeSize_brushSize_of_fit (b : _brush) (d : Int)
    (h : inIntRange (b.brushSize + d)) :
    (b.ChangeSize d).brushSize = max 1 (b.brushSize + d) := by
  unfold _brush.ChangeSize
  dsimp only
  rw [addInt_eq _ _ h]
  by_cases h0 : b.brushSize + d ≤ 0
  · rw [if_pos h0]
    dsimp only
    exact (max_eq_left (by omega)).symm
  · rw [if_neg h0]
    dsimp only
    exact (max_eq_right (by omega)).symm

theorem circlePixels_one (canvas : _surface) (x y : Int)
    (hc : canvas.hitBox = { pos := (0, 0), w := 580, h := 480 })
    (h : canvas.hitBox.CheckInbound x y = true) : circlePixels canvas 1 x y = [(x, y)] := by
  have hp := (CheckInbound_startup_iff _ x y hc).mp h
  have hr : ∀ a : Int, 0 < a → a < 580 → intRange (addInt (subInt a 1) 1) (addInt a 1) = [a] := by
    intro a h1 h2
    rw [subInt_eq _ _ ⟨by omega, by omega⟩, addInt_eq _ _ ⟨by omega, by omega⟩,
      addInt_eq _ _ ⟨by omega, by omega⟩]
    unfold intRange
    have : a + 1 - (a - 1 + 1) = 1 := by ring
    rw [this]
    simp [List.range_succ]
  have ht : addInt (mulInt (subInt x x) (subInt x x)) (mulInt (subInt y y) (subInt y y)) ≤
      mulInt 1 1 := by
    unfold subInt
    rw [sub_self, sub_self]
    decide
  unfold circlePixels
  rw [hr x hp.1 hp.2.1, hr y hp.2.2.1 (by omega)]
  simp [h, ht]

/-! ## The claims about overlapping buttons, the startup layout and the brush shape -/

/-- C17 (counterexample): with a red, a green and a blue button stacked on one
rectangle at index 0, 1 and 2 and the click inside it, the buttons at index 0
and 1 both contain the point, but the brush ends blue, the colour of button 2,
not green, the colour of button 1. -/
theorem C17_counterexample :
    stackedThree.sidebar.hitBox.CheckInbound stackedThree.mousePos.1
      stackedThree.mousePos.2 = true ∧
    stackedThree.buttons[0]? = some (mkButton 590 10 40 50 { R := 255, G := 0, B := 0 }) ∧
    stackedThree.buttons[1]? = some (mkButton 590 10 40 50 { R := 0, G := 255, B := 0 }) ∧
    (mkButton 590 10 40 50 { R := 255, G := 0, B := 0 }).surface.hitBox.CheckInbound
      stackedThree.mousePos.1 stackedThree.mousePos.2 = true ∧
    (mkButton 590 10 40 50 { R := 0, G := 255, B := 0 }).surface.hitBox.CheckInbound
      stackedThree.mousePos.1 stackedThree.mousePos.2 = true ∧
    (Click stackedThree).brush.brushColor = { R := 0, G := 0, B := 255 } ∧
    (Click stackedThree).brush.brushColor ≠
      (mkButton 590 10 40 50 { R := 0, G := 255, B := 0 }).surface.bgColor := by
  decide

/-- C17 (amended): for every button list and every click point inside the
sidebar, `Click` applies the ordinal action of every button whose region
contains the point, in list order.  If the buttons at index 5 and 6 both contain
the point, the size (an `int` below 2147483647) is increased by 1 and then
decreased by 1, each with the floor of 1; if the buttons at index 0 and 1 both
contain it, and no button at index 2, 3 or 4 does, the brush ends with the
colour of button 1. -/
theorem C17_Click_fires_every_hit_button (s : App)
    (hside : s.sidebar.hitBox.CheckInbound s.mousePos.1 s.mousePos.2 = true) :
    Click s =
      { s with brush := (List.foldl (ordinalAction s.canvas.bgColor) s.brush
          (hitButtons s.buttons s.mousePos.1 s.mousePos.2)) } ∧
    (∀ b5 b6 : _button, s.buttons[5]? = some b5 → s.buttons[6]? = some b6 →
      b5.surface.hitBox.CheckInbound s.mousePos.1 s.mousePos.2 = true →
      b6.surface.hitBox.CheckInbound s.mousePos.1 s.mousePos.2 = true →
      -2147483648 ≤ s.brush.brushSize → s.brush.brushSize < 2147483647 →
      (Click s).brush.brushSize = max 1 (max 1 (s.brush.brushSize + 1) - 1)) ∧
    (∀ b0 b1 : _button, s.buttons[0]? = some b0 → s.buttons[1]? = some b1 →
      b0.surface.hitBox.CheckInbound s.mousePos.1 s.mousePos.2 = true →
      b1.surface.hitBox.CheckInbound s.mousePos.1 s.mousePos.2 = true →
      (∀ (i : Nat) (b : _button), 2 ≤ i → i ≤ 4 → s.buttons[i]? = some b →
        b.surface.hitBox.CheckInbound s.mousePos.1 s.mousePos.2 = false) →
      (Click s).brush.brushColor = b1.surface.bgColor) := by
  refine ⟨Click_eq_of_sidebar s hside, ?_, ?_⟩
  · intro b5 b6 h5 h6 hin5 hin6 hlo hhi
    rw [Click_size_of_hit_5_6 s b5 b6 hside h5 h6 hin5 hin6]
    have e1 := ChangeSize_brushSize_of_fit s.brush 1 ⟨by omega, by omega⟩
    have hb : 1 ≤ (s.brush.ChangeSize 1).brushSize ∧
        (s.brush.ChangeSize 1).brushSize ≤ 2147483647 := by
      rw [e1]
      exact ⟨le_max_left _ _, max_le (by omega) (by omega)⟩
    rw [ChangeSize_brushSize_of_fit (s.brush.ChangeSize 1) (-1) ⟨by omega, by omega⟩, e1]
    rfl
  · intro b0 b1 h0 h1 _ hin1 hmiss
    exact Click_color_of_hit_0_1 s b0 b1 hside h0 h1 hin1 hmiss

/-- C17 (witness): with six buttons stacked on one rectangle and the click inside
it, all six actions fire in order: the brush ends with the canvas background set
by index 4 and with size 5 from index 5; with seven stacked buttons the action
of index 6 fires too and the size is back at 4. -/
theorem C17_Click_fires_every_hit_button_witness :
    stackedSix.sidebar.hitBox.CheckInbound stackedSix.mousePos.1
      stackedSix.mousePos.2 = true ∧
    (hitButtons stackedSix.buttons stackedSix.mousePos.1 stackedSix.mousePos.2).length = 6 ∧
    Click stackedSix =
      { stackedSix with
        brush := { brushSize := 5, brushColor := { R := 255, G := 255, B := 255 } } } ∧
    Click stackedSeven =
      { stackedSeven with
        brush := { brushSize := 4, brushColor := { R := 255, G := 255, B := 255 } } } :=
  ⟨by decide, by decide,
    (C17_Click_fires_every_hit_button stackedSix (by decide)).1.trans (by decide),
    (C17_Click_fires_every_hit_button stackedSeven (by decide)).1.trans (by decide)⟩

/-- C18: in the startup scene, a point contained in the region of button `i` is
contained in no other button's region, is contained in the sidebar region and is
not contained in the canvas region; no point at all is contained in both the
sidebar and the canvas region.  Hence button `i` is the only button hit, and in
every state of the startup scene a click there passes the sidebar guard and
fires exactly the action of button `i`. -/
theorem C18_startup_buttons_disjoint (x y : Int) (i : Nat) (bi : _button)
    (hi : startApp.buttons[i]? = some bi)
    (hin : bi.surface.hitBox.CheckInbound x y = true) :
    (∀ (j : Nat) (bj : _button), startApp.buttons[j]? = some bj →
      bj.surface.hitBox.CheckInbound x y = true → j = i) ∧
    startApp.sidebar.hitBox.CheckInbound x y = true ∧
    startApp.canvas.hitBox.CheckInbound x y = false ∧
    (∀ u v : Int, ¬ (startApp.sidebar.hitBox.CheckInbound u v = true ∧
      startApp.canvas.hitBox.CheckInbound u v = true)) ∧
    startApp.buttons.length = 7 ∧
    hitButtons startApp.buttons x y = [(i, bi)] ∧
    (∀ s : App, s.canvas = startApp.canvas → s.sidebar = startApp.sidebar →
      s.buttons = startApp.buttons → s.mousePos = (x, y) →
      Click s = { s with brush := ordinalAction s.canvas.bgColor s.brush (i, bi) }) := by
  obtain ⟨hi7, hbox⟩ := startApp_buttons_box i bi hi
  have hpt := hin
  rw [hbox, button_box_iff i hi7] at hpt
  have huniq : ∀ (j : Nat) (bj : _button), startApp.buttons[j]? = some bj →
      bj.surface.hitBox.CheckInbound x y = true → j = i := by
    intro j bj hj hjin
    obtain ⟨hj7, hboxj⟩ := startApp_buttons_box j bj hj
    rw [hboxj, button_box_iff j hj7] at hjin
    omega
  have hside : startApp.sidebar.hitBox.CheckInbound x y = true := by
    rw [sidebar_box_iff]
    omega
  have hexcl : ∀ u v : Int, ¬ (startApp.sidebar.hitBox.CheckInbound u v = true ∧
      startApp.canvas.hitBox.CheckInbound u v = true) := by
    rintro u v ⟨h1, h2⟩
    rw [sidebar_box_iff] at h1
    rw [CheckInbound_startup_iff _ u v startApp_canvas_hitBox] at h2
    omega
  have hhit : hitButtons startApp.buttons x y = [(i, bi)] := by
    unfold hitButtons
    rw [List.enum, filter_enumFrom_single (fun b => b.surface.hitBox.CheckInbound x y)
      i bi startApp.buttons 0 hi hin, Nat.zero_add]
    intro j bj hji hj
    rw [Bool.eq_false_iff]
    exact fun h => hji (huniq j bj hj h)
  refine ⟨huniq, hside, ?_, hexcl, by decide, hhit, ?_⟩
  · rw [Bool.eq_false_iff]
    exact fun h => hexcl x y ⟨hside, h⟩
  · intro s _ hsb hb hm
    have hm1 : s.mousePos.1 = x := by rw [hm]
    have hm2 : s.mousePos.2 = y := by rw [hm]
    rw [Click_eq_of_sidebar s (by rw [hsb, hm1, hm2]; exact hside), hb, hm1, hm2, hhit]
    rfl

/-- C18 (witness): the point `(600, 330)` lies in button 5 of the startup scene;
it lies in the sidebar, not in the canvas, and button 5 is the only button hit. -/
theorem C18_startup_buttons_disjoint_witness :
    startApp.buttons[5]? = some (mkButton 590 310 40 50 { R := 100, G := 100, B := 100 }) ∧
    (mkButton 590 310 40 50 { R := 100, G := 100, B := 100 }).surface.hitBox.CheckInbound
      600 330 = true ∧
    startApp.sidebar.hitBox.CheckInbound 600 330 = true ∧
    startApp.canvas.hitBox.CheckInbound 600 330 = false ∧
    hitButtons startApp.buttons 600 330 =
      [(5, mkButton 590 310 40 50 { R := 100, G := 100, B := 100 })] :=
  have h := C18_startup_buttons_disjoint 600 330 5
    (mkButton 590 310 40 50 { R := 100, G := 100, B := 100 }) (by decide) (by decide)
  ⟨by decide, by decide, h.2.1, h.2.2.1, h.2.2.2.2.2.1⟩

/-- C19 (counterexample): in the startup scene with brush size 46341 and the
pointer at `(100, 100)` inside the canvas, `Draw` does not paint the pointer
position: the `int` product `r * r` wraps to a negative value. -/
theorem C19_counterexample :
    (sceneWith (100, 100) 46341).canvas.hitBox.CheckInbound 100 100 = true ∧
    (1 : Int) ≤ (sceneWith (100, 100) 46341).brush.brushSize ∧
    (sceneWith (100, 100) 46341).mousePos ∉
      plotted (newCalls (sceneWith (100, 100) 46341).renderer
        (_brush.Draw (sceneWith (100, 100) 46341)).renderer) := by
  refine ⟨by decide, by decide, ?_⟩
  have h : ((100 : Int), (100 : Int)) ∉
      plotted (newCalls (sceneWith (100, 100) 46341).renderer
        (_brush.Draw (sceneWith (100, 100) 46341)).renderer) := by
    rw [mem_plotted_Draw, mem_circlePixels]
    decide
  exact h

/-- C19 (amended): in the program's scene (startup canvas), for every pointer
position inside the canvas and every brush size `r` from 1 to 46340: a brush of
size 1 paints exactly one pixel, the pointer position itself; the pointer
position is painted; and no pixel `(i, j)` with `|i - x| ≥ r` or `|j - y| ≥ r`
is painted, so the pixels `(x + r, y)`, `(x - r, y)`, `(x, y + r)`, `(x, y - r)`
are never painted and any two painted pixels differ by less than `2r - 1` in
each coordinate. -/
theorem C19_Draw_shape (s : App)
    (hcanvas : s.canvas.hitBox = startApp.canvas.hitBox)
    (hin : s.canvas.hitBox.CheckInbound s.mousePos.1 s.mousePos.2 = true)
    (hsize : 1 ≤ s.brush.brushSize) (hmax : s.brush.brushSize ≤ 46340) :
    (s.brush.brushSize = 1 →
      plotted (newCalls s.renderer (_brush.Draw s).renderer) = [s.mousePos]) ∧
    s.mousePos ∈ plotted (newCalls s.renderer (_brush.Draw s).renderer) ∧
    (∀ i j : Int,
      (s.brush.brushSize ≤ |i - s.mousePos.1| ∨ s.brush.brushSize ≤ |j - s.mousePos.2|) →
      (i, j) ∉ plotted (newCalls s.renderer (_brush.Draw s).renderer)) ∧
    ((s.mousePos.1 + s.brush.brushSize, s.mousePos.2) ∉
        plotted (newCalls s.renderer (_brush.Draw s).renderer) ∧
      (s.mousePos.1 - s.brush.brushSize, s.mousePos.2) ∉
        plotted (newCalls s.renderer (_brush.Draw s).renderer) ∧
      (s.mousePos.1, s.mousePos.2 + s.brush.brushSize) ∉
        plotted (newCalls s.renderer (_brush.Draw s).renderer) ∧
      (s.mousePos.1, s.mousePos.2 - s.brush.brushSize) ∉
        plotted (newCalls s.renderer (_brush.Draw s).renderer)) ∧
    (∀ i j i2 j2 : Int,
      (i, j) ∈ plotted (newCalls s.renderer (_brush.Draw s).renderer) →
      (i2, j2) ∈ plotted (newCalls s.renderer (_brush.Draw s).renderer) →
      |i - i2| < 2 * s.brush.brushSize - 1 ∧ |j - j2| < 2 * s.brush.brushSize - 1) := by
  have hc := hcanvas.trans startApp_canvas_hitBox
  have hp := (CheckInbound_startup_iff _ _ _ hc).mp hin
  have hbox : ∀ i j : Int,
      (i, j) ∈ plotted (newCalls s.renderer (_brush.Draw s).renderer) →
      (s.mousePos.1 - s.brush.brushSize + 1 ≤ i ∧ i < s.mousePos.1 + s.brush.brushSize) ∧
      (s.mousePos.2 - s.brush.brushSize + 1 ≤ j ∧ j < s.mousePos.2 + s.brush.brushSize) := by
    intro i j h
    have := (mem_circlePixels_startup _ _ _ _ _ _ hc ⟨hp.1, hp.2.1⟩ ⟨hp.2.2.1, hp.2.2.2⟩
      hsize hmax).mp ((mem_plotted_Draw s i j).mp h).2
    exact ⟨this.1, this.2.1⟩
  have hfar : ∀ i j : Int,
      (s.brush.brushSize ≤ |i - s.mousePos.1| ∨ s.brush.brushSize ≤ |j - s.mousePos.2|) →
      (i, j) ∉ plotted (newCalls s.renderer (_brush.Draw s).renderer) := by
    intro i j hor hmem
    obtain ⟨⟨h1, h2⟩, h3, h4⟩ := hbox i j hmem
    rcases hor with h | h
    · have : |i - s.mousePos.1| < s.brush.brushSize := abs_lt.mpr ⟨by omega, by omega⟩
      omega
    · have : |j - s.mousePos.2| < s.brush.brushSize := abs_lt.mpr ⟨by omega, by omega⟩
      omega
  refine ⟨?_, ?_, hfar, ⟨?_, ?_, ?_, ?_⟩, ?_⟩
  · intro h1
    rw [newCalls_Draw s hin, plotted_present_plotCalls, h1, circlePixels_one _ _ _ hc hin]
    rfl
  · have : (s.mousePos.1, s.mousePos.2) ∈
        plotted (newCalls s.renderer (_brush.Draw s).renderer) :=
      (mem_plotted_Draw s _ _).mpr ⟨hin, centre_mem_circlePixels _ _ _ _ hc hsize hmax hin⟩
    exact this
  · apply hfar
    left
    rw [add_sub_cancel_left]
    exact le_abs_self _
  · apply hfar
    left
    rw [sub_sub_cancel_left, abs_neg]
    exact le_abs_self _
  · apply hfar
    right
    rw [add_sub_cancel_left]
    exact le_abs_self _
  · apply hfar
    right
    rw [sub_sub_cancel_left, abs_neg]
    exact le_abs_self _
  · intro i j i2 j2 h1 h2
    obtain ⟨⟨a1, a2⟩, a3, a4⟩ := hbox i j h1
    obtain ⟨⟨b1, b2⟩, b3, b4⟩ := hbox i2 j2 h2
    exact ⟨abs_lt.mpr ⟨by omega, by omega⟩, abs_lt.mpr ⟨by omega, by omega⟩⟩

/-- C19 (witness): in the startup scene with brush size 1 and the pointer at
`(100, 100)`, `Draw` paints exactly the pixel `(100, 100)`. -/
theorem C19_Draw_shape_witness :
    (sceneWith (100, 100) 1).canvas.hitBox = startApp.canvas.hitBox ∧
    (sceneWith (100, 100) 1).canvas.hitBox.CheckInbound 100 100 = true ∧
    ((1 : Int) ≤ (sceneWith (100, 100) 1).brush.brushSize ∧
      (sceneWith (100, 100) 1).brush.brushSize ≤ 46340) ∧
    plotted (newCalls (sceneWith (100, 100) 1).renderer
      (_brush.Draw (sceneWith (100, 100) 1)).renderer) = [(100, 100)] :=
  ⟨rfl, by decide, by decide,
    (C19_Draw_shape (sceneWith (100, 100) 1) rfl (by decide) (by decide) (by decide)).1 rfl⟩

/-- C20 (counterexample): on the startup canvas with centre `(100, 100)`, the
pixel `(100, 100)` is plotted by `DrawCircle` with radius 46340 but not with the
larger radius 46341, whose `int` product `r * r` wraps to a negative value. -/
theorem C20_counterexample :
    (1 : Int) ≤ 46340 ∧ (46340 : Int) ≤ 46341 ∧
    ((100 : Int), (100 : Int)) ∈ plotted (newCalls startApp.renderer
      (DrawCircle startApp.canvas startApp.renderer 46340 100 100)) ∧
    ((100 : Int), (100 : Int)) ∉ plotted (newCalls startApp.renderer
      (DrawCircle startApp.canvas startApp.renderer 46341 100 100)) := by
  refine ⟨by decide, by decide, ?_, ?_⟩
  · rw [newCalls_DrawCircle, plotted_plotCalls, List.mem_reverse, mem_circlePixels]
    decide
  · rw [newCalls_DrawCircle, plotted_plotCalls, List.mem_reverse, mem_circlePixels]
    decide

/-- C20 (amended): for every canvas region, all radii `1 ≤ r ≤ r2 ≤ 46340` and
every centre `(x, y)` whose bounds `x - r2`, `x + r2`, `y - r2`, `y + r2` fit a
32-bit `int`, every pixel plotted by `DrawCircle r x y` is plotted by
`DrawCircle r2 x y`. -/
theorem C20_DrawCircle_monotone (canvas : _surface) (ren ren2 : Renderer)
    (r r2 x y i j : Int) (hr : 1 ≤ r) (hle : r ≤ r2) (hmax : r2 ≤ 46340)
    (hx : inIntRange (x - r2) ∧ inIntRange (x + r2))
    (hy : inIntRange (y - r2) ∧ inIntRange (y + r2))
    (h : (i, j) ∈ plotted (newCalls ren (DrawCircle canvas ren r x y))) :
    (i, j) ∈ plotted (newCalls ren2 (DrawCircle canvas ren2 r2 x y)) := by
  rw [newCalls_DrawCircle, plotted_plotCalls, List.mem_reverse, mem_circlePixels] at h ⊢
  obtain ⟨⟨hx1, hx2⟩, ⟨hx3, hx4⟩⟩ := hx
  obtain ⟨⟨hy1, hy2⟩, ⟨hy3, hy4⟩⟩ := hy
  have bx := circle_bounds_eq x r
    ⟨⟨by omega, by omega⟩, ⟨by omega, by omega⟩, ⟨by omega, by omega⟩⟩
  have bY := circle_bounds_eq y r
    ⟨⟨by omega, by omega⟩, ⟨by omega, by omega⟩, ⟨by omega, by omega⟩⟩
  have bx2 := circle_bounds_eq x r2
    ⟨⟨by omega, by omega⟩, ⟨by omega, by omega⟩, ⟨by omega, by omega⟩⟩
  have bY2 := circle_bounds_eq y r2
    ⟨⟨by omega, by omega⟩, ⟨by omega, by omega⟩, ⟨by omega, by omega⟩⟩
  rw [bx.1, bx.2, bY.1, bY.2] at h
  rw [bx2.1, bx2.2, bY2.1, bY2.2]
  obtain ⟨⟨h1, h2⟩, ⟨h3, h4⟩, hin, hd⟩ := h
  refine ⟨⟨by omega, by omega⟩, ⟨by omega, by omega⟩, hin, ?_⟩
  have s1 : 0 ≤ r * r ∧ r * r ≤ 2147395600 := ⟨mul_self_nonneg _, by nlinarith⟩
  have s2 : 0 ≤ r2 * r2 ∧ r2 * r2 ≤ 2147395600 := ⟨mul_self_nonneg _, by nlinarith⟩
  have s3 : r * r ≤ r2 * r2 := by nlinarith
  rw [mulInt_eq r r ⟨by omega, by omega⟩] at hd
  rw [mulInt_eq r2 r2 ⟨by omega, by omega⟩]
  omega

/-- C20 (witness): on the startup canvas, pixel `(100, 101)` is plotted by the
radius-2 circle at `(100, 100)` and therefore by the radius-3 circle. -/
theorem C20_DrawCircle_monotone_witness :
    ((1 : Int) ≤ 2 ∧ (2 : Int) ≤ 3 ∧ (3 : Int) ≤ 46340) ∧
    (inIntRange (100 - 3) ∧ inIntRange (100 + 3)) ∧
    ((100 : Int), (101 : Int)) ∈ plotted (newCalls startApp.renderer
      (DrawCircle startApp.canvas startApp.renderer 2 100 100)) ∧
    ((100 : Int), (101 : Int)) ∈ plotted (newCalls startApp.renderer
      (DrawCircle startApp.canvas startApp.renderer 3 100 100)) :=
  ⟨by decide, by decide, by decide,
    C20_DrawCircle_monotone startApp.canvas startApp.renderer startApp.renderer 2 3 100 100
      100 101 (by decide) (by decide) (by decide) (by decide) (by decide) (by decide)⟩
